import Mathlib

/-!
# Game.js: the per-frame update of the platformer

A shallow embedding of `src/Game.js`.  JavaScript numbers that hold coordinates,
sizes and speeds are modelled as rationals (`ℚ`), the counters `score` and
`gameTime` as naturals and `thinkModeTimer` as an integer.  The movement of an
asteroid, whose speed is an arbitrary double, rounds its result to a double
(`roundDouble`).  The global mutable world is an explicit `World` record,
`update` is a function on it.  The values returned by `Math.random()` are an
explicit argument of `update`.
-/

namespace Game

/-! ## Data model -/

/-- The rectangle part shared by every game object (`x`, `y`, `width`, `height`). -/
structure Box where
  x : ℚ
  y : ℚ
  width : ℚ
  height : ℚ
  deriving DecidableEq

/-- The drawing surface: only its size is read by the game logic. -/
structure Canvas where
  width : ℚ
  height : ℚ
  deriving DecidableEq

/-- An element of `platforms`. -/
structure Platform where
  x : ℚ
  y : ℚ
  width : ℚ
  height : ℚ
  deriving DecidableEq

/-- An element of `bones` or `hiddenBones`. -/
structure Bone where
  x : ℚ
  y : ℚ
  width : ℚ
  height : ℚ
  hidden : Bool
  deriving DecidableEq

/-- An element of `asteroids`. -/
structure Asteroid where
  x : ℚ
  y : ℚ
  width : ℚ
  height : ℚ
  speed : ℚ
  deriving DecidableEq

/-- An element of `robots`. -/
structure Robot where
  x : ℚ
  y : ℚ
  width : ℚ
  height : ℚ
  speed : ℚ
  deriving DecidableEq

/-- The mutable fields of the `player` object (lines 10-24).  The fields that are
never assigned (`width`, `height`, `speed`, `gravity`, `jumpPower`,
`thinkModeDuration`) are the constants below. -/
structure Player where
  x : ℚ
  y : ℚ
  dy : ℚ
  grounded : Bool
  deepSearch : Bool
  thinkMode : Bool
  thinkModeTimer : Int
  deriving DecidableEq

def playerWidth : ℚ := 40
def playerHeight : ℚ := 40
def playerSpeed : ℚ := 5
def gravity : ℚ := 1 / 2
def jumpPower : ℚ := -12
def thinkModeDuration : Int := 120

/-- The `keys` object, restricted to the five entries `update` reads. -/
structure Keys where
  arrowLeft : Bool
  arrowRight : Bool
  space : Bool
  d : Bool
  t : Bool
  deriving DecidableEq

/-- The module-level variables of `Game.js`, with the text of `messageDisplay`. -/
structure World where
  score : Nat
  gameTime : Nat
  player : Player
  bones : List Bone
  hiddenBones : List Bone
  asteroids : List Asteroid
  robots : List Robot
  message : String
  deriving DecidableEq

/-- One value returned by `Math.random()`: a number in `[0, 1)`. -/
structure Draw where
  val : ℚ
  nonneg : 0 ≤ val
  lt_one : val < 1

/-- The values `Math.random()` returns during one `update`, in call order:
`spawnBone` draws three, `spawnAsteroid` two, `spawnRobot` one. -/
structure Rand where
  bonePlatform : Draw
  boneOffset : Draw
  boneHidden : Draw
  asteroidY : Draw
  asteroidSpeed : Draw
  robotPlatform : Draw

/-- The `platforms` array (lines 31-35). -/
def platforms (c : Canvas) : List Platform :=
  [ { x := 0, y := c.height - 20, width := 200, height := 20 },
    { x := 300, y := c.height - 100, width := 200, height := 20 },
    { x := 600, y := c.height - 200, width := 200, height := 20 } ]

def Platform.box (p : Platform) : Box := ⟨p.x, p.y, p.width, p.height⟩
def Bone.box (b : Bone) : Box := ⟨b.x, b.y, b.width, b.height⟩
def Asteroid.box (a : Asteroid) : Box := ⟨a.x, a.y, a.width, a.height⟩
def Robot.box (r : Robot) : Box := ⟨r.x, r.y, r.width, r.height⟩
def Player.box (p : Player) : Box := ⟨p.x, p.y, playerWidth, playerHeight⟩

/-- `collides(a, b)` (lines 76-81). -/
def collides (a b : Box) : Bool :=
  decide (a.x < b.x + b.width) && decide (a.x + a.width > b.x) &&
  decide (a.y < b.y + b.height) && decide (a.y + a.height > b.y)

/-! ## Spawning (lines 43-73) -/

/-- `Math.floor(Math.random() * platforms.length)` for the three platforms. -/
def platformIndex (r : Draw) : Nat := (Int.floor (r.val * 3)).toNat

/-- `platforms[Math.floor(Math.random() * platforms.length)]`: the index is in
range because the draw lies in `[0, 1)`. -/
def pickPlatform (c : Canvas) (r : Draw) : Platform :=
  (platforms c).get ⟨platformIndex r, by
    have h1 : Int.floor (r.val * 3) < 3 := by
      rw [Int.floor_lt]
      have := r.lt_one
      push_cast
      linarith
    simp only [platformIndex, platforms, List.length_cons, List.length_nil]
    omega⟩

/-- The object literal `spawnBone` pushes (lines 45-51). -/
def newBone (c : Canvas) (rnd : Rand) : Bone :=
  let platform := pickPlatform c rnd.bonePlatform
  { x := platform.x + rnd.boneOffset.val * (platform.width - 20),
    y := platform.y - 20,
    width := 20,
    height := 20,
    hidden := decide (rnd.boneHidden.val < 3 / 10) }

/-- `spawnBone()` (lines 43-52). -/
def spawnBone (c : Canvas) (rnd : Rand) (w : World) : World :=
  { w with bones := w.bones ++ [newBone c rnd] }

/-- `spawnAsteroid()` (lines 54-62). -/
def spawnAsteroid (c : Canvas) (rnd : Rand) (w : World) : World :=
  { w with asteroids := w.asteroids ++
      [{ x := c.width,
         y := rnd.asteroidY.val * (c.height - 100),
         width := 30,
         height := 30,
         speed := 3 + rnd.asteroidSpeed.val * 2 }] }

/-- `spawnRobot()` (lines 64-73). -/
def spawnRobot (c : Canvas) (rnd : Rand) (w : World) : World :=
  let platform := pickPlatform c rnd.robotPlatform
  { w with robots := w.robots ++
      [{ x := platform.x + platform.width - 40,
         y := platform.y - 40,
         width := 40,
         height := 40,
         speed := -2 }] }

/-! ## The game loop (lines 84-185) -/

/-- Lines 88-93: horizontal movement and jump. -/
def movePlayer (keys : Keys) (p : Player) : Player :=
  let p := if keys.arrowLeft then { p with x := p.x - playerSpeed } else p
  let p := if keys.arrowRight then { p with x := p.x + playerSpeed } else p
  if keys.space && p.grounded then { p with dy := jumpPower, grounded := false } else p

/-- Lines 94-102: the reveal-mode ("deep search") step. -/
def revealStep (keys : Keys) (w : World) : World :=
  if keys.d && !w.player.deepSearch then
    { w with player := { w.player with deepSearch := true },
             hiddenBones := w.bones.filter (fun b => b.hidden),
             bones := w.bones.filter (fun b => !b.hidden) }
  else if !keys.d then
    { w with player := { w.player with deepSearch := false },
             bones := w.bones ++ w.hiddenBones,
             hiddenBones := [] }
  else w

/-- Lines 103-106: activation of think mode. -/
def thinkStart (keys : Keys) (p : Player) : Player :=
  if keys.t && !p.thinkMode then
    { p with thinkMode := true, thinkModeTimer := thinkModeDuration }
  else p

/-- Lines 109-110: gravity. -/
def applyGravity (p : Player) : Player :=
  let p := { p with dy := p.dy + gravity }
  { p with y := p.y + p.dy }

/-- Lines 113-119: keep the player in bounds. -/
def keepInBounds (c : Canvas) (p : Player) : Player :=
  let p := if p.x < 0 then { p with x := 0 } else p
  let p := if p.x + playerWidth > c.width then { p with x := c.width - playerWidth } else p
  if p.y + playerHeight > c.height then
    { p with y := c.height - playerHeight, dy := 0, grounded := true }
  else p

/-- The condition of line 124. -/
def landsOn (p : Player) (platform : Platform) : Bool :=
  collides p.box platform.box && decide (p.dy > 0) &&
    decide (p.y + playerHeight - p.dy ≤ platform.y)

/-- The body of the platform loop (lines 124-128). -/
def platformStep (p : Player) (platform : Platform) : Player :=
  if landsOn p platform then
    { p with y := platform.y - playerHeight, dy := 0, grounded := true }
  else p

/-- Lines 122-129: platform collisions. -/
def platformLoop (ps : List Platform) (p : Player) : Player :=
  ps.foldl platformStep { p with grounded := false }

/-- Lines 132-135: the think-mode countdown. -/
def thinkTick (p : Player) : Player :=
  if p.thinkMode then
    let p := { p with thinkModeTimer := p.thinkModeTimer - 1 }
    if p.thinkModeTimer ≤ 0 then { p with thinkMode := false } else p
  else p

/-- The body of the two `if (collides(player, ...))` blocks (lines 142-149 and
161-168).  `hiddenBones`, `grounded` and the mode flags are not assigned. -/
def gameOver (c : Canvas) (w : World) : World :=
  { w with score := 0,
           player := { w.player with x := 50, y := c.height - 50, dy := 0 },
           asteroids := [],
           robots := [],
           bones := [],
           message := "Game Over! Press any key to restart." }

/-- The state of a `for ... of` loop over a hazard array: the world, whether a
collision block ran in this loop so far, and the objects already visited (with
the changes the body made to them). -/
structure LoopState (α : Type) where
  world : World
  hit : Bool
  visited : List α

/-- The power of two `2 ^ e` as a rational, for an integer exponent. -/
def pow2 (e : Int) : ℚ :=
  if 0 ≤ e then ((2 ^ e.toNat : Nat) : ℚ) else 1 / ((2 ^ (-e).toNat : Nat) : ℚ)

/-- Bisection for the binary exponent: keeps `2 ^ lo <= a < 2 ^ hi`. -/
def exponentSearch (a : ℚ) : Nat → Int → Int → Int
  | 0, lo, _ => lo
  | fuel + 1, lo, hi =>
    let mid := (lo + hi) / 2
    if pow2 mid ≤ a then exponentSearch a fuel mid hi else exponentSearch a fuel lo mid

/-- The binary exponent of the doubles around `q`: the largest `e` from `-1022`
to `1023` with `2 ^ e <= |q|`, and `-1022` in the subnormal range. -/
def exponent (q : ℚ) : Int := exponentSearch |q| 11 (-1022) 1024

/-- The unit in the last place of the doubles around `q`: 52 binary places below
the exponent of `q`. -/
def ulp (q : ℚ) : ℚ := pow2 (exponent q - 52)

/-- Rounding to the nearest integer, ties to the even one. -/
def roundHalfEven (t : ℚ) : Int :=
  let f := Int.floor t
  if t - f < 1 / 2 then f
  else if 1 / 2 < t - f then f + 1
  else if f % 2 = 0 then f else f + 1

/-- The double nearest to `q` (round to nearest, ties to even): the value a
JavaScript number holds after an arithmetic operation whose exact result is `q`.
Overflow to `Infinity` is not modelled. -/
def roundDouble (q : ℚ) : ℚ :=
  if q = 0 then 0 else (roundHalfEven (q / ulp q) : ℚ) * ulp q

/-- Line 140: the movement of one asteroid.  An asteroid's speed is
`3 + Math.random() * 2`, a double that uses all its binary places, so the
product and the difference of `asteroid.x -= asteroid.speed * (...)` are each
rounded to a double. -/
def moveAsteroid (think : Bool) (a : Asteroid) : Asteroid :=
  { a with x := roundDouble (a.x - roundDouble (a.speed * (if think then 1 / 2 else 1))) }

/-- The body of the asteroid loop (lines 140-150). -/
def asteroidStep (c : Canvas) (st : LoopState Asteroid) (a : Asteroid) : LoopState Asteroid :=
  let a := moveAsteroid st.world.player.thinkMode a
  if collides st.world.player.box a.box then
    { world := gameOver c st.world, hit := true, visited := st.visited ++ [a] }
  else
    { st with visited := st.visited ++ [a] }

/-- Lines 138-151.  The loop iterates over the array that `asteroids` held when
the loop started; an assignment `asteroids = []` in the body rebinds the
variable and does not end the iteration.  When no collision block ran, the
variable still holds the iterated array, whose objects were moved in place. -/
def asteroidsPhase (c : Canvas) (w : World) : LoopState Asteroid :=
  let live := w.asteroids.filter (fun a => decide (a.x > -a.width))
  let st := live.foldl (asteroidStep c) { world := { w with asteroids := live }, hit := false, visited := [] }
  if st.hit then st else { st with world := { st.world with asteroids := st.visited } }

/-- Lines 155-159: the movement of one robot and its turn at a platform edge. -/
def moveRobot (ps : List Platform) (think : Bool) (r : Robot) : Robot :=
  let r := { r with x := r.x + r.speed * (if think then 1 / 2 else 1) }
  match ps.find? (fun p => decide (r.y + r.height = p.y)) with
  | some platform =>
    if r.x < platform.x || r.x + r.width > platform.x + platform.width then
      { r with speed := -r.speed }
    else r
  | none => r

/-- The body of the robot loop (lines 155-169). -/
def robotStep (c : Canvas) (ps : List Platform) (st : LoopState Robot) (r : Robot) :
    LoopState Robot :=
  let r := moveRobot ps st.world.player.thinkMode r
  if collides st.world.player.box r.box then
    { world := gameOver c st.world, hit := true, visited := st.visited ++ [r] }
  else
    { st with visited := st.visited ++ [r] }

/-- Lines 154-170, iterating over the array `robots` holds when the loop starts
(empty after a collision in the asteroid loop). -/
def robotsPhase (c : Canvas) (ps : List Platform) (w : World) : LoopState Robot :=
  let st := w.robots.foldl (robotStep c ps) { world := w, hit := false, visited := [] }
  if st.hit then st else { st with world := { st.world with robots := st.visited } }

/-- The predicate of the filter callback of lines 173-179: the bone is collected. -/
def collected (p : Player) (b : Bone) : Bool :=
  collides p.box b.box && (!b.hidden || p.deepSearch)

/-- Lines 173-179: collect bones; `score++` runs once per removed bone. -/
def collectBones (w : World) : World :=
  { w with score := w.score + (w.bones.filter (collected w.player)).length,
           bones := w.bones.filter (fun b => !collected w.player b) }

/-- Lines 85-93: the clock and the movement keys. -/
def inputPhase (keys : Keys) (w : World) : World :=
  let w := { w with gameTime := w.gameTime + 1 }
  { w with player := movePlayer keys w.player }

/-- Lines 85-110: the input step and gravity. -/
def gravityPhase (keys : Keys) (w : World) : World :=
  let w := revealStep keys (inputPhase keys w)
  let w := { w with player := thinkStart keys w.player }
  { w with player := applyGravity w.player }

/-- Lines 85-119: everything up to the platform loop. -/
def physicsPhase (c : Canvas) (keys : Keys) (w : World) : World :=
  let w := gravityPhase keys w
  { w with player := keepInBounds c w.player }

/-- Lines 85-135: the clock, the input step and the player physics. -/
def playerPhase (c : Canvas) (ps : List Platform) (keys : Keys) (w : World) : World :=
  let w := physicsPhase c keys w
  let w := { w with player := platformLoop ps w.player }
  { w with player := thinkTick w.player }

/-- Lines 85-179 over a platform list `ps`: everything before the spawns. -/
def frame (c : Canvas) (ps : List Platform) (keys : Keys) (w : World) : World :=
  collectBones (robotsPhase c ps (asteroidsPhase c (playerPhase c ps keys w)).world).world

/-- Whether one of the two hazard collision blocks runs during the update. -/
def hazardHit (c : Canvas) (ps : List Platform) (keys : Keys) (w : World) : Bool :=
  (asteroidsPhase c (playerPhase c ps keys w)).hit ||
    (robotsPhase c ps (asteroidsPhase c (playerPhase c ps keys w)).world).hit

/-- Lines 182-184: the spawns due on this frame. -/
def spawnPhase (c : Canvas) (rnd : Rand) (w : World) : World :=
  let w := if w.gameTime % 60 = 0 then spawnBone c rnd w else w
  let w := if w.gameTime % 120 = 0 then spawnAsteroid c rnd w else w
  if w.gameTime % 180 = 0 then spawnRobot c rnd w else w

/-- `update()` (lines 84-185; rendering does not change the state). -/
def update (c : Canvas) (keys : Keys) (rnd : Rand) (w : World) : World :=
  spawnPhase c rnd (frame c (platforms c) keys w)

/-- The module-level initial values (lines 6-30). -/
def initial (c : Canvas) : World :=
  { score := 0,
    gameTime := 0,
    player := { x := 50, y := c.height - 50, dy := 0, grounded := false,
                deepSearch := false, thinkMode := false, thinkModeTimer := 0 },
    bones := [],
    hiddenBones := [],
    asteroids := [],
    robots := [],
    message := "" }

/-- Lines 224-226: the three spawns made before the first `update`. -/
def start (c : Canvas) (rnd : Rand) : World :=
  spawnRobot c rnd (spawnAsteroid c rnd (spawnBone c rnd (initial c)))

/-- A run of `update`, one pair of held keys and random draws per frame. -/
def run (c : Canvas) : List (Keys × Rand) → World → World
  | [], w => w
  | (keys, rnd) :: rest, w => run c rest (update c keys rnd w)

/-- The states reachable from the initial state by updates. -/
inductive Reachable (c : Canvas) : World → Prop
  | init : Reachable c (initial c)
  | start (rnd : Rand) : Reachable c (start c rnd)
  | step (keys : Keys) (rnd : Rand) (w : World) : Reachable c w → Reachable c (update c keys rnd w)

/-! ## Concrete data used to run the definitions -/

/-- An 800 by 400 canvas, on which the three platforms fit. -/
def canvas800 : Canvas := ⟨800, 400⟩

/-- No key held. -/
def noKeys : Keys := ⟨false, false, false, false, false⟩

/-- Only the reveal key `d` held. -/
def keysD : Keys := ⟨false, false, false, true, false⟩

/-- Only the think-mode key `t` held. -/
def keysT : Keys := ⟨false, false, false, false, true⟩

/-- The draw `0`. -/
def draw0 : Draw := ⟨0, le_refl 0, zero_lt_one⟩

/-- Six draws equal to `0`. -/
def rand0 : Rand := ⟨draw0, draw0, draw0, draw0, draw0, draw0⟩

/-- A hidden bone that overlaps the player at the start position. -/
def hiddenBone : Bone := ⟨60, 360, 20, 20, true⟩

/-- A visible bone that overlaps the player at the start position. -/
def plainBone : Bone := ⟨70, 360, 20, 20, false⟩

/-- The initial world with a score of 3, two bones on the player and a robot on
the lowest platform about to touch the player. -/
def worldHit : World :=
  { initial canvas800 with
      score := 3,
      bones := [hiddenBone, plainBone],
      robots := [⟨91, 340, 40, 40, -2⟩] }

/-- The initial world with one hidden bone on the player. -/
def worldHidden : World := { initial canvas800 with bones := [hiddenBone] }

/-- The world `worldHidden` with a second bone, already in reveal mode. -/
def worldRevealed : World :=
  { initial canvas800 with
      player := { (initial canvas800).player with deepSearch := true },
      bones := [hiddenBone, plainBone] }

/-- The world five updates after the initial world with no key held: the player
has fallen to `y = 357.5` with `dy = 2.5`. -/
def worldFalling : World :=
  { initial canvas800 with
      gameTime := 5,
      player := { (initial canvas800).player with y := 715 / 2, dy := 5 / 2 } }

/-- The initial world with the player falling just above the lowest platform. -/
def worldLanding : World :=
  { initial canvas800 with
      player := { (initial canvas800).player with y := 338, dy := 5 / 2 } }

/-- The initial world with a hidden and a visible bone on the player. -/
def worldBones : World := { initial canvas800 with bones := [hiddenBone, plainBone] }

/-- The object literal `spawnAsteroid` pushes (lines 55-61). -/
def newAsteroid (c : Canvas) (rnd : Rand) : Asteroid :=
  { x := c.width,
    y := rnd.asteroidY.val * (c.height - 100),
    width := 30,
    height := 30,
    speed := 3 + rnd.asteroidSpeed.val * 2 }

/-- The object literal `spawnRobot` pushes (lines 66-72). -/
def newRobot (c : Canvas) (rnd : Rand) : Robot :=
  let platform := pickPlatform c rnd.robotPlatform
  { x := platform.x + platform.width - 40,
    y := platform.y - 40,
    width := 40,
    height := 40,
    speed := -2 }

/-- The factor of lines 140 and 155: `player.thinkMode ? 0.5 : 1`. -/
def speedFactor (think : Bool) : ℚ := if think then 1 / 2 else 1

/-- The draw `1/3`, which picks the middle platform. -/
def drawThird : Draw := ⟨1 / 3, by norm_num, by norm_num⟩

/-- Draws equal to `0`, except that the robot is put on the middle platform. -/
def randMid : Rand := ⟨draw0, draw0, draw0, draw0, draw0, drawThird⟩

/-- The world 81 updates after the startup spawns of `randMid` with no key held:
the robot of the middle platform (span 300 to 500) has passed its left edge at
full speed and turned. -/
def worldEdge : World :=
  { score := 0,
    gameTime := 81,
    player := { x := 50, y := 360, dy := 0, grounded := false,
                deepSearch := false, thinkMode := false, thinkModeTimer := 0 },
    bones := [⟨0, 360, 20, 20, true⟩, ⟨0, 360, 20, 20, true⟩],
    hiddenBones := [],
    asteroids := [⟨557, 0, 30, 30, 3⟩],
    robots := [⟨298, 260, 40, 40, 2⟩],
    message := "" }

/-- The initial world with the player standing on the lowest platform. -/
def worldGrounded : World :=
  { initial canvas800 with
      player := { (initial canvas800).player with y := 340, grounded := true } }

/-- Only the jump key held. -/
def keysSpace : Keys := ⟨false, false, true, false, false⟩

/-- Two platforms whose boxes both meet a player falling through `y = 100`. -/
def twoPlatforms : List Platform := [⟨0, 136, 200, 20⟩, ⟨0, 138, 200, 20⟩]

/-- A player entering the platform loop with bottom edge 140 and `dy = 5`. -/
def fallingPlayer : Player :=
  { x := 50, y := 100, dy := 5, grounded := false,
    deepSearch := false, thinkMode := false, thinkModeTimer := 0 }

/-- The initial world with an asteroid that has left the canvas, one at its
right edge, and a robot on the middle platform. -/
def worldAsteroids : World :=
  { initial canvas800 with
      asteroids := [⟨-30, 10, 30, 30, 4⟩, ⟨800, 20, 30, 30, 4⟩],
      robots := [⟨460, 260, 40, 40, -2⟩] }

/-- The initial world with a score of 3, two bones on the player and an asteroid
about to touch the player. -/
def worldAsteroidHit : World :=
  { initial canvas800 with
      score := 3,
      bones := [hiddenBone, plainBone],
      asteroids := [⟨74, 340, 30, 30, 4⟩] }

/-- A second hidden bone that overlaps the player at the start position. -/
def hiddenBoneTwo : Bone := ⟨65, 360, 20, 20, true⟩

/-- The initial world with two hidden bones and a visible one on the player. -/
def worldHiddenTwo : World :=
  { initial canvas800 with bones := [hiddenBone, plainBone, hiddenBoneTwo] }

/-- The draw `2 ^ (-51)`, a double. -/
def drawTiny : Draw := ⟨1 / 2 ^ 51, by norm_num, by norm_num⟩

/-- Draws equal to `0`, except that the asteroid's speed is `3 + 2 ^ (-50)`. -/
def randTiny : Rand := ⟨draw0, draw0, draw0, draw0, drawTiny, draw0⟩

/-! ## Helper lemmas -/

section helpers

@[simp] theorem gameOver_score (c : Canvas) (w : World) : (gameOver c w).score = 0 := rfl
@[simp] theorem gameOver_bones (c : Canvas) (w : World) : (gameOver c w).bones = [] := rfl
@[simp] theorem gameOver_asteroids (c : Canvas) (w : World) : (gameOver c w).asteroids = [] := rfl
@[simp] theorem gameOver_robots (c : Canvas) (w : World) : (gameOver c w).robots = [] := rfl
@[simp] theorem gameOver_hiddenBones (c : Canvas) (w : World) :
    (gameOver c w).hiddenBones = w.hiddenBones := rfl
@[simp] theorem gameOver_gameTime (c : Canvas) (w : World) :
    (gameOver c w).gameTime = w.gameTime := rfl
@[simp] theorem gameOver_player (c : Canvas) (w : World) :
    (gameOver c w).player = { w.player with x := 50, y := c.height - 50, dy := 0 } := rfl

theorem gameOver_idem (c : Canvas) (w : World) : gameOver c (gameOver c w) = gameOver c w := rfl

theorem gameOver_set_asteroids (c : Canvas) (w : World) (l : List Asteroid) :
    gameOver c { w with asteroids := l } = gameOver c w := rfl

theorem gameOver_set_robots (c : Canvas) (w : World) (l : List Robot) :
    gameOver c { w with robots := l } = gameOver c w := rfl

/-- A loop whose body either leaves the world alone or runs the collision block
finishes in the world it started from, or in that world after one collision block. -/
theorem loop_world {α : Type} (c : Canvas) (f : LoopState α → α → LoopState α)
    (hf : ∀ st a, ((f st a).world = st.world ∧ (f st a).hit = st.hit) ∨
      ((f st a).world = gameOver c st.world ∧ (f st a).hit = true)) :
    ∀ (l : List α) (st : LoopState α),
      ((l.foldl f st).world = st.world ∧ (l.foldl f st).hit = st.hit) ∨
      ((l.foldl f st).world = gameOver c st.world ∧ (l.foldl f st).hit = true) := by
  intro l
  induction l with
  | nil => intro st; exact Or.inl ⟨rfl, rfl⟩
  | cons a rest ih =>
    intro st
    simp only [List.foldl_cons]
    rcases ih (f st a) with ⟨h1, h2⟩ | ⟨h1, h2⟩ <;> rcases hf st a with ⟨h3, h4⟩ | ⟨h3, h4⟩
    · exact Or.inl ⟨h1.trans h3, h2.trans h4⟩
    · exact Or.inr ⟨h1.trans h3, h2.trans h4⟩
    · exact Or.inr ⟨by rw [h1, h3], h2⟩
    · exact Or.inr ⟨by rw [h1, h3, gameOver_idem], h2⟩

theorem asteroidStep_world (c : Canvas) (st : LoopState Asteroid) (a : Asteroid) :
    ((asteroidStep c st a).world = st.world ∧ (asteroidStep c st a).hit = st.hit) ∨
      ((asteroidStep c st a).world = gameOver c st.world ∧ (asteroidStep c st a).hit = true) := by
  unfold asteroidStep
  dsimp only
  split
  · exact Or.inr ⟨rfl, rfl⟩
  · exact Or.inl ⟨rfl, rfl⟩

theorem robotStep_world (c : Canvas) (ps : List Platform) (st : LoopState Robot) (r : Robot) :
    ((robotStep c ps st r).world = st.world ∧ (robotStep c ps st r).hit = st.hit) ∨
      ((robotStep c ps st r).world = gameOver c st.world ∧ (robotStep c ps st r).hit = true) := by
  unfold robotStep
  dsimp only
  split
  · exact Or.inr ⟨rfl, rfl⟩
  · exact Or.inl ⟨rfl, rfl⟩

/-- The asteroid phase either runs no collision block and only replaces the
asteroid array, or ends in the world after a collision block. -/
theorem asteroidsPhase_cases (c : Canvas) (w : World) :
    ((asteroidsPhase c w).hit = false ∧
      ∃ l, (asteroidsPhase c w).world = { w with asteroids := l }) ∨
    ((asteroidsPhase c w).hit = true ∧ (asteroidsPhase c w).world = gameOver c w) := by
  unfold asteroidsPhase
  dsimp only
  rcases loop_world c (asteroidStep c) (asteroidStep_world c)
      (w.asteroids.filter (fun a => decide (a.x > -a.width)))
      { world := { w with asteroids := w.asteroids.filter (fun a => decide (a.x > -a.width)) },
        hit := false, visited := [] } with ⟨h1, h2⟩ | ⟨h1, h2⟩
  · left
    dsimp only at h1 h2
    rw [if_neg (by rw [h2]; simp)]
    exact ⟨h2, _, by rw [h1]⟩
  · right
    rw [if_pos h2]
    exact ⟨h2, by rw [h1]; rfl⟩

/-- The robot phase either runs no collision block and only replaces the robot
array, or ends in the world after a collision block. -/
theorem robotsPhase_cases (c : Canvas) (ps : List Platform) (w : World) :
    ((robotsPhase c ps w).hit = false ∧
      ∃ l, (robotsPhase c ps w).world = { w with robots := l }) ∨
    ((robotsPhase c ps w).hit = true ∧ (robotsPhase c ps w).world = gameOver c w) := by
  unfold robotsPhase
  dsimp only
  rcases loop_world c (robotStep c ps) (robotStep_world c ps) w.robots
      { world := w, hit := false, visited := [] } with ⟨h1, h2⟩ | ⟨h1, h2⟩
  · left
    dsimp only at h1 h2
    rw [if_neg (by rw [h2]; simp)]
    exact ⟨h2, _, by rw [h1]⟩
  · right
    rw [if_pos h2]
    exact ⟨h2, by rw [h1]⟩

/-- With no robot left the robot phase changes nothing. -/
theorem robotsPhase_nil (c : Canvas) (ps : List Platform) (w : World) (h : w.robots = []) :
    (robotsPhase c ps w).hit = false ∧ (robotsPhase c ps w).world = w := by
  unfold robotsPhase
  cases w
  simp only at h
  subst h
  simp

/-- After a hazard collision the world before the bone collection is the world
of the player phase after one collision block. -/
theorem hit_world (c : Canvas) (ps : List Platform) (keys : Keys) (w : World)
    (h : hazardHit c ps keys w = true) :
    (robotsPhase c ps (asteroidsPhase c (playerPhase c ps keys w)).world).world =
      gameOver c (playerPhase c ps keys w) := by
  unfold hazardHit at h
  rcases asteroidsPhase_cases c (playerPhase c ps keys w) with ⟨ha, l, hl⟩ | ⟨ha, hl⟩
  · rw [ha, Bool.false_or] at h
    rcases robotsPhase_cases c ps (asteroidsPhase c (playerPhase c ps keys w)).world with
      ⟨hr, _⟩ | ⟨_, hr⟩
    · rw [hr] at h; exact absurd h (by simp)
    · rw [hr, hl, gameOver_set_asteroids]
  · rw [hl, (robotsPhase_nil c ps _ (gameOver_robots c _)).2]

/-- Without a hazard collision the hazard phases only replace the two hazard arrays. -/
theorem nohit_world (c : Canvas) (ps : List Platform) (keys : Keys) (w : World)
    (h : hazardHit c ps keys w = false) :
    ∃ la lr, (robotsPhase c ps (asteroidsPhase c (playerPhase c ps keys w)).world).world =
      { playerPhase c ps keys w with asteroids := la, robots := lr } := by
  unfold hazardHit at h
  rw [Bool.or_eq_false_iff] at h
  rcases asteroidsPhase_cases c (playerPhase c ps keys w) with ⟨_, l, hl⟩ | ⟨ha, _⟩
  · rcases robotsPhase_cases c ps (asteroidsPhase c (playerPhase c ps keys w)).world with
      ⟨_, l2, hr⟩ | ⟨hr, _⟩
    · exact ⟨l, l2, by rw [hr, hl]⟩
    · rw [hr] at h; exact absurd h.2 (by simp)
  · rw [ha] at h; exact absurd h.1 (by simp)

theorem collectBones_gameOver (c : Canvas) (w : World) :
    collectBones (gameOver c w) = gameOver c w := rfl

theorem frame_hit (c : Canvas) (ps : List Platform) (keys : Keys) (w : World)
    (h : hazardHit c ps keys w = true) :
    frame c ps keys w = gameOver c (playerPhase c ps keys w) := by
  unfold frame
  rw [hit_world c ps keys w h, collectBones_gameOver]

theorem spawnPhase_score (c : Canvas) (rnd : Rand) (w : World) :
    (spawnPhase c rnd w).score = w.score := by
  unfold spawnPhase spawnBone spawnAsteroid spawnRobot
  dsimp only
  split_ifs <;> rfl

theorem spawnPhase_player (c : Canvas) (rnd : Rand) (w : World) :
    (spawnPhase c rnd w).player = w.player := by
  unfold spawnPhase spawnBone spawnAsteroid spawnRobot
  dsimp only
  split_ifs <;> rfl

theorem spawnPhase_hiddenBones (c : Canvas) (rnd : Rand) (w : World) :
    (spawnPhase c rnd w).hiddenBones = w.hiddenBones := by
  unfold spawnPhase spawnBone spawnAsteroid spawnRobot
  dsimp only
  split_ifs <;> rfl

end helpers

section fields

theorem platformStep_fields (p : Player) (pl : Platform) :
    (platformStep p pl).x = p.x ∧ (platformStep p pl).deepSearch = p.deepSearch ∧
    (platformStep p pl).thinkMode = p.thinkMode ∧
    (platformStep p pl).thinkModeTimer = p.thinkModeTimer := by
  unfold platformStep
  split <;> exact ⟨rfl, rfl, rfl, rfl⟩

theorem foldl_platformStep_fields (ps : List Platform) (p : Player) :
    (ps.foldl platformStep p).x = p.x ∧ (ps.foldl platformStep p).deepSearch = p.deepSearch ∧
    (ps.foldl platformStep p).thinkMode = p.thinkMode ∧
    (ps.foldl platformStep p).thinkModeTimer = p.thinkModeTimer := by
  induction ps generalizing p with
  | nil => exact ⟨rfl, rfl, rfl, rfl⟩
  | cons pl rest ih =>
    simp only [List.foldl_cons]
    obtain ⟨h1, h2, h3, h4⟩ := ih (platformStep p pl)
    obtain ⟨g1, g2, g3, g4⟩ := platformStep_fields p pl
    exact ⟨h1.trans g1, h2.trans g2, h3.trans g3, h4.trans g4⟩

theorem platformLoop_fields (ps : List Platform) (p : Player) :
    (platformLoop ps p).x = p.x ∧ (platformLoop ps p).deepSearch = p.deepSearch ∧
    (platformLoop ps p).thinkMode = p.thinkMode ∧
    (platformLoop ps p).thinkModeTimer = p.thinkModeTimer :=
  foldl_platformStep_fields ps { p with grounded := false }

/-- The think-mode countdown changes only the two think-mode fields. -/
theorem thinkTick_fields (p : Player) :
    (thinkTick p).x = p.x ∧ (thinkTick p).y = p.y ∧ (thinkTick p).dy = p.dy ∧
    (thinkTick p).grounded = p.grounded ∧ (thinkTick p).deepSearch = p.deepSearch := by
  unfold thinkTick
  dsimp only
  split_ifs <;> exact ⟨rfl, rfl, rfl, rfl, rfl⟩

theorem thinkStart_fields (keys : Keys) (p : Player) :
    (thinkStart keys p).x = p.x ∧ (thinkStart keys p).y = p.y ∧ (thinkStart keys p).dy = p.dy ∧
    (thinkStart keys p).grounded = p.grounded ∧ (thinkStart keys p).deepSearch = p.deepSearch := by
  unfold thinkStart
  split_ifs <;> exact ⟨rfl, rfl, rfl, rfl, rfl⟩

theorem keepInBounds_fields (c : Canvas) (p : Player) :
    (keepInBounds c p).deepSearch = p.deepSearch ∧ (keepInBounds c p).thinkMode = p.thinkMode ∧
    (keepInBounds c p).thinkModeTimer = p.thinkModeTimer := by
  unfold keepInBounds
  dsimp only
  split_ifs <;> exact ⟨rfl, rfl, rfl⟩

theorem movePlayer_fields (keys : Keys) (p : Player) :
    (movePlayer keys p).deepSearch = p.deepSearch ∧ (movePlayer keys p).thinkMode = p.thinkMode ∧
    (movePlayer keys p).thinkModeTimer = p.thinkModeTimer := by
  unfold movePlayer
  dsimp only
  split_ifs <;> exact ⟨rfl, rfl, rfl⟩

/-- The reveal step changes only `deepSearch` and the two bone collections. -/
theorem revealStep_fields (keys : Keys) (w : World) :
    (revealStep keys w).score = w.score ∧ (revealStep keys w).gameTime = w.gameTime ∧
    (revealStep keys w).player.x = w.player.x ∧ (revealStep keys w).player.y = w.player.y ∧
    (revealStep keys w).player.dy = w.player.dy ∧
    (revealStep keys w).player.grounded = w.player.grounded ∧
    (revealStep keys w).player.thinkMode = w.player.thinkMode ∧
    (revealStep keys w).player.thinkModeTimer = w.player.thinkModeTimer := by
  unfold revealStep
  split_ifs <;> exact ⟨rfl, rfl, rfl, rfl, rfl, rfl, rfl, rfl⟩

theorem playerPhase_bones (c : Canvas) (ps : List Platform) (keys : Keys) (w : World) :
    (playerPhase c ps keys w).bones = (revealStep keys (inputPhase keys w)).bones := rfl

theorem playerPhase_hiddenBones (c : Canvas) (ps : List Platform) (keys : Keys) (w : World) :
    (playerPhase c ps keys w).hiddenBones = (revealStep keys (inputPhase keys w)).hiddenBones :=
  rfl

theorem playerPhase_score (c : Canvas) (ps : List Platform) (keys : Keys) (w : World) :
    (playerPhase c ps keys w).score = w.score :=
  (revealStep_fields keys (inputPhase keys w)).1

theorem playerPhase_gameTime (c : Canvas) (ps : List Platform) (keys : Keys) (w : World) :
    (playerPhase c ps keys w).gameTime = w.gameTime + 1 :=
  (revealStep_fields keys (inputPhase keys w)).2.1

theorem playerPhase_deepSearch (c : Canvas) (ps : List Platform) (keys : Keys) (w : World) :
    (playerPhase c ps keys w).player.deepSearch =
      (revealStep keys (inputPhase keys w)).player.deepSearch := by
  unfold playerPhase physicsPhase gravityPhase
  dsimp only
  rw [(thinkTick_fields _).2.2.2.2, (platformLoop_fields ps _).2.1, (keepInBounds_fields c _).1]
  unfold applyGravity
  dsimp only
  rw [(thinkStart_fields keys _).2.2.2.2]

/-- Without a hazard collision the player, the score and the bones reach the bone
collection as the player phase left them. -/
theorem frame_nohit (c : Canvas) (ps : List Platform) (keys : Keys) (w : World)
    (h : hazardHit c ps keys w = false) :
    (frame c ps keys w).player = (playerPhase c ps keys w).player ∧
    (frame c ps keys w).hiddenBones = (playerPhase c ps keys w).hiddenBones ∧
    (frame c ps keys w).bones =
      (playerPhase c ps keys w).bones.filter
        (fun b => !collected (playerPhase c ps keys w).player b) ∧
    (frame c ps keys w).score =
      w.score + ((playerPhase c ps keys w).bones.filter
        (collected (playerPhase c ps keys w).player)).length := by
  obtain ⟨la, lr, hw⟩ := nohit_world c ps keys w h
  unfold frame
  rw [hw]
  refine ⟨rfl, rfl, rfl, ?_⟩
  show (playerPhase c ps keys w).score + _ = _
  rw [playerPhase_score]

theorem spawnPhase_bones (c : Canvas) (rnd : Rand) (w : World) :
    (spawnPhase c rnd w).bones =
      w.bones ++ (if w.gameTime % 60 = 0 then [newBone c rnd] else []) := by
  unfold spawnPhase spawnBone spawnAsteroid spawnRobot
  dsimp only
  split_ifs <;> simp

end fields

section reveal

/-- With the reveal key held in reveal mode the reveal step does nothing. -/
theorem revealStep_held_active (keys : Keys) (w : World) (hd : keys.d = true)
    (hds : w.player.deepSearch = true) : revealStep keys w = w := by
  unfold revealStep
  simp [hd, hds]

/-- With the reveal key not held the reveal step merges the parked bones back. -/
theorem revealStep_released (keys : Keys) (w : World) (hd : keys.d = false) :
    revealStep keys w =
      { w with player := { w.player with deepSearch := false },
               bones := w.bones ++ w.hiddenBones,
               hiddenBones := [] } := by
  unfold revealStep
  simp [hd]

/-- After the reveal step the parked collection is empty outside reveal mode. -/
theorem revealStep_parked (keys : Keys) (w : World)
    (h : (revealStep keys w).player.deepSearch = false) :
    (revealStep keys w).hiddenBones = [] := by
  unfold revealStep at h ⊢
  by_cases h1 : (keys.d && !w.player.deepSearch) = true
  · rw [if_pos h1] at h
    simp at h
  · rw [if_neg h1] at h ⊢
    by_cases h2 : (!keys.d) = true
    · rw [if_pos h2]
    · rw [if_neg h2] at h
      exfalso
      apply h1
      simp only [Bool.not_eq_true', Bool.not_eq_false] at h2
      simp [h2, h]

theorem inputPhase_bones (keys : Keys) (w : World) : (inputPhase keys w).bones = w.bones := rfl

theorem inputPhase_hiddenBones (keys : Keys) (w : World) :
    (inputPhase keys w).hiddenBones = w.hiddenBones := rfl

theorem inputPhase_deepSearch (keys : Keys) (w : World) :
    (inputPhase keys w).player.deepSearch = w.player.deepSearch :=
  (movePlayer_fields keys w.player).1

theorem frame_hiddenBones (c : Canvas) (ps : List Platform) (keys : Keys) (w : World) :
    (frame c ps keys w).hiddenBones = (revealStep keys (inputPhase keys w)).hiddenBones := by
  cases h : hazardHit c ps keys w
  · rw [(frame_nohit c ps keys w h).2.1, playerPhase_hiddenBones]
  · rw [frame_hit c ps keys w h, gameOver_hiddenBones, playerPhase_hiddenBones]

theorem frame_deepSearch (c : Canvas) (ps : List Platform) (keys : Keys) (w : World) :
    (frame c ps keys w).player.deepSearch =
      (revealStep keys (inputPhase keys w)).player.deepSearch := by
  cases h : hazardHit c ps keys w
  · rw [(frame_nohit c ps keys w h).1, playerPhase_deepSearch]
  · rw [frame_hit c ps keys w h, gameOver_player]
    exact playerPhase_deepSearch c ps keys w

theorem frame_gameTime (c : Canvas) (ps : List Platform) (keys : Keys) (w : World) :
    (frame c ps keys w).gameTime = w.gameTime + 1 := by
  cases h : hazardHit c ps keys w
  · obtain ⟨la, lr, hw⟩ := nohit_world c ps keys w h
    unfold frame
    rw [hw]
    exact playerPhase_gameTime c ps keys w
  · rw [frame_hit c ps keys w h, gameOver_gameTime, playerPhase_gameTime]

/-- After every update the parked collection is empty outside reveal mode. -/
theorem update_parked (c : Canvas) (keys : Keys) (rnd : Rand) (w : World)
    (h : (update c keys rnd w).player.deepSearch = false) :
    (update c keys rnd w).hiddenBones = [] := by
  unfold update at h ⊢
  rw [spawnPhase_player, frame_deepSearch] at h
  rw [spawnPhase_hiddenBones, frame_hiddenBones]
  exact revealStep_parked keys _ h

/-- In a reachable state the parked collection is empty outside reveal mode. -/
theorem reachable_parked (c : Canvas) (w : World) (h : Reachable c w)
    (hds : w.player.deepSearch = false) : w.hiddenBones = [] := by
  cases h with
  | init => rfl
  | start rnd => rfl
  | step keys rnd w0 _ => exact update_parked c keys rnd w0 hds

end reveal

section player

/-- The player of the frame: the player of the player phase, teleported when a
collision block ran. -/
theorem frame_player (c : Canvas) (ps : List Platform) (keys : Keys) (w : World) :
    (frame c ps keys w).player =
      if hazardHit c ps keys w = true then
        { (playerPhase c ps keys w).player with x := 50, y := c.height - 50, dy := 0 }
      else (playerPhase c ps keys w).player := by
  cases h : hazardHit c ps keys w
  · rw [if_neg (by simp)]
    exact (frame_nohit c ps keys w h).1
  · rw [if_pos rfl, frame_hit c ps keys w h]
    rfl

theorem update_player (c : Canvas) (keys : Keys) (rnd : Rand) (w : World) :
    (update c keys rnd w).player = (frame c (platforms c) keys w).player :=
  spawnPhase_player c rnd _

/-- A player that is not falling is left alone by the platform loop body. -/
theorem foldl_platformStep_rest (ps : List Platform) (p : Player) (h : p.dy ≤ 0) :
    ps.foldl platformStep p = p := by
  induction ps with
  | nil => rfl
  | cons pl rest ih =>
    have hstep : platformStep p pl = p := by
      unfold platformStep landsOn
      rw [if_neg]
      simp only [Bool.and_eq_true, decide_eq_true_eq, not_and, not_le]
      intro hdy
      exact absurd hdy.2 (not_lt.mpr h)
    rw [List.foldl_cons, hstep, ih]

theorem keepInBounds_x (c : Canvas) (p : Player) (hc : 40 ≤ c.width) :
    0 ≤ (keepInBounds c p).x ∧ (keepInBounds c p).x ≤ c.width - playerWidth := by
  unfold keepInBounds playerWidth
  dsimp only
  split_ifs <;> constructor <;> dsimp only at * <;> linarith

/-- The floor branch of `keepInBounds`. -/
theorem keepInBounds_floor (c : Canvas) (p : Player) (h : p.y + playerHeight > c.height) :
    (keepInBounds c p).y = c.height - playerHeight ∧ (keepInBounds c p).dy = 0 := by
  unfold keepInBounds
  dsimp only
  split_ifs <;> exact ⟨rfl, rfl⟩

theorem physicsPhase_x (c : Canvas) (ps : List Platform) (keys : Keys) (w : World) :
    (playerPhase c ps keys w).player.x = (keepInBounds c (gravityPhase keys w).player).x := by
  unfold playerPhase physicsPhase
  dsimp only
  rw [(thinkTick_fields _).1, (platformLoop_fields ps _).1]

/-- When gravity takes the player below the floor the update ends with the
player on the floor, not falling and not grounded (line 122 runs after line 118). -/
theorem floor_clamp (c : Canvas) (ps : List Platform) (keys : Keys) (w : World)
    (h : (gravityPhase keys w).player.y + playerHeight > c.height) :
    (playerPhase c ps keys w).player.y = c.height - playerHeight ∧
    (playerPhase c ps keys w).player.dy = 0 ∧
    (playerPhase c ps keys w).player.grounded = false := by
  obtain ⟨hy, hdy⟩ := keepInBounds_floor c _ h
  have hloop : platformLoop ps (keepInBounds c (gravityPhase keys w).player) =
      { keepInBounds c (gravityPhase keys w).player with grounded := false } := by
    unfold platformLoop
    exact foldl_platformStep_rest ps _ (le_of_eq hdy)
  unfold playerPhase physicsPhase
  dsimp only
  rw [(thinkTick_fields _).2.1, (thinkTick_fields _).2.2.1, (thinkTick_fields _).2.2.2.1, hloop]
  exact ⟨hy, hdy, rfl⟩

end player

section think

theorem thinkStart_think (keys : Keys) (p : Player) :
    (thinkStart keys p).thinkMode = (p.thinkMode || keys.t) ∧
    (thinkStart keys p).thinkModeTimer =
      if (keys.t && !p.thinkMode) = true then thinkModeDuration else p.thinkModeTimer := by
  unfold thinkStart
  split_ifs with h
  · simp only [Bool.and_eq_true, Bool.not_eq_true'] at h
    simp [h.1]
  · simp only [Bool.and_eq_true, Bool.not_eq_true', not_and, Bool.not_eq_false] at h
    refine ⟨?_, rfl⟩
    cases ht : keys.t
    · simp
    · simp [h ht]

theorem thinkTick_think (p : Player) :
    (thinkTick p).thinkMode = (p.thinkMode && decide (1 < p.thinkModeTimer)) ∧
    (thinkTick p).thinkModeTimer =
      if p.thinkMode = true then p.thinkModeTimer - 1 else p.thinkModeTimer := by
  unfold thinkTick
  dsimp only
  split_ifs with h1 h2
  · refine ⟨?_, rfl⟩
    simp only [h1, Bool.true_and]
    symm
    rw [decide_eq_false_iff_not]
    omega
  · refine ⟨?_, rfl⟩
    simp only [h1, Bool.true_and]
    symm
    rw [decide_eq_true_eq]
    omega
  · simp only [Bool.not_eq_true] at h1
    simp [h1]

/-- The think-mode fields after an update depend only on the think-mode fields
before it and on the key `t`. -/
theorem update_think (c : Canvas) (keys : Keys) (rnd : Rand) (w : World) :
    (update c keys rnd w).player.thinkMode = (thinkTick (thinkStart keys w.player)).thinkMode ∧
    (update c keys rnd w).player.thinkModeTimer =
      (thinkTick (thinkStart keys w.player)).thinkModeTimer := by
  have hpp : (playerPhase c (platforms c) keys w).player.thinkMode =
        (thinkTick (thinkStart keys w.player)).thinkMode ∧
      (playerPhase c (platforms c) keys w).player.thinkModeTimer =
        (thinkTick (thinkStart keys w.player)).thinkModeTimer := by
    have hm : ∀ q : Player, q.thinkMode = (thinkStart keys w.player).thinkMode →
        q.thinkModeTimer = (thinkStart keys w.player).thinkModeTimer →
        (thinkTick q).thinkMode = (thinkTick (thinkStart keys w.player)).thinkMode ∧
        (thinkTick q).thinkModeTimer = (thinkTick (thinkStart keys w.player)).thinkModeTimer := by
      intro q h1 h2
      rw [(thinkTick_think q).1, (thinkTick_think q).2, (thinkTick_think _).1,
        (thinkTick_think _).2, h1, h2]
      exact ⟨rfl, rfl⟩
    have hs : ∀ q : Player, q.thinkMode = w.player.thinkMode →
        q.thinkModeTimer = w.player.thinkModeTimer →
        (thinkStart keys q).thinkMode = (thinkStart keys w.player).thinkMode ∧
        (thinkStart keys q).thinkModeTimer = (thinkStart keys w.player).thinkModeTimer := by
      intro q h1 h2
      rw [(thinkStart_think keys q).1, (thinkStart_think keys q).2, (thinkStart_think keys _).1,
        (thinkStart_think keys _).2, h1, h2]
      exact ⟨rfl, rfl⟩
    obtain ⟨r1, r2⟩ := hs (revealStep keys (inputPhase keys w)).player
      ((revealStep_fields keys _).2.2.2.2.2.2.1.trans (movePlayer_fields keys w.player).2.1)
      ((revealStep_fields keys _).2.2.2.2.2.2.2.trans (movePlayer_fields keys w.player).2.2)
    unfold playerPhase physicsPhase gravityPhase
    dsimp only
    apply hm
    · rw [(platformLoop_fields _ _).2.2.1, (keepInBounds_fields c _).2.1]
      exact r1
    · rw [(platformLoop_fields _ _).2.2.2, (keepInBounds_fields c _).2.2]
      exact r2
  rw [update_player, frame_player]
  split_ifs
  · exact hpp
  · exact hpp

/-- With think mode active and more frames left than updates run, think mode is
still active after the run and the timer has gone down by one per update. -/
theorem run_think_active (c : Canvas) (l : List (Keys × Rand)) :
    ∀ w : World, w.player.thinkMode = true → (l.length : Int) < w.player.thinkModeTimer →
      (run c l w).player.thinkMode = true ∧
      (run c l w).player.thinkModeTimer = w.player.thinkModeTimer - l.length := by
  induction l with
  | nil => intro w h _; exact ⟨h, by simp [run]⟩
  | cons a rest ih =>
    intro w h hlt
    obtain ⟨keys, rnd⟩ := a
    simp only [List.length_cons, Nat.cast_add, Nat.cast_one] at hlt
    obtain ⟨u1, u2⟩ := update_think c keys rnd w
    have s1 := (thinkStart_think keys w.player).1
    have s2 := (thinkStart_think keys w.player).2
    rw [h] at s1 s2
    simp only [Bool.true_or, Bool.not_true, Bool.and_false, Bool.false_eq_true,
      if_false] at s1 s2
    rw [(thinkTick_think _).1, s1, s2] at u1
    rw [(thinkTick_think _).2, s1, s2, if_pos rfl] at u2
    have hm : (update c keys rnd w).player.thinkMode = true := by
      rw [u1]
      simp only [Bool.true_and, decide_eq_true_eq]
      omega
    obtain ⟨r1, r2⟩ := ih (update c keys rnd w) hm (by rw [u2]; omega)
    refine ⟨r1, ?_⟩
    show (run c rest (update c keys rnd w)).player.thinkModeTimer = _
    rw [r2, u2]
    simp only [List.length_cons, Nat.cast_add, Nat.cast_one]
    omega

/-- With think mode active and exactly as many frames left as updates run (at
least one), think mode is off after the run. -/
theorem run_think_expires (c : Canvas) (l : List (Keys × Rand)) :
    ∀ w : World, w.player.thinkMode = true → l ≠ [] →
      w.player.thinkModeTimer = (l.length : Int) → (run c l w).player.thinkMode = false := by
  induction l with
  | nil => intro w _ hne _; exact absurd rfl hne
  | cons a rest ih =>
    intro w h _ hlen
    obtain ⟨keys, rnd⟩ := a
    simp only [List.length_cons, Nat.cast_add, Nat.cast_one] at hlen
    obtain ⟨u1, u2⟩ := update_think c keys rnd w
    have s1 := (thinkStart_think keys w.player).1
    have s2 := (thinkStart_think keys w.player).2
    rw [h] at s1 s2
    simp only [Bool.true_or, Bool.not_true, Bool.and_false, Bool.false_eq_true,
      if_false] at s1 s2
    rw [(thinkTick_think _).1, s1, s2] at u1
    rw [(thinkTick_think _).2, s1, s2, if_pos rfl] at u2
    show (run c rest (update c keys rnd w)).player.thinkMode = false
    cases rest with
    | nil =>
      show (update c keys rnd w).player.thinkMode = false
      rw [u1]
      simp only [Bool.true_and, decide_eq_false_iff_not]
      simp only [List.length_nil, Nat.cast_zero] at hlen
      omega
    | cons b rest2 =>
      apply ih
      · rw [u1]
        simp only [Bool.true_and, decide_eq_true_eq]
        simp only [List.length_cons, Nat.cast_add, Nat.cast_one] at hlen
        omega
      · simp
      · rw [u2, hlen]
        simp

end think

section landing

/-- A platform loop in which some platform satisfies the landing condition ends
with the player standing on a platform of the list. -/
theorem foldl_platformStep_lands (ps : List Platform) (p : Player) (pl : Platform)
    (hmem : pl ∈ ps) (hland : landsOn p pl = true) :
    (ps.foldl platformStep p).dy = 0 ∧ (ps.foldl platformStep p).grounded = true ∧
    ∃ q ∈ ps, (ps.foldl platformStep p).y + playerHeight = q.y := by
  induction ps with
  | nil => exact absurd hmem (List.not_mem_nil _)
  | cons a rest ih =>
    rw [List.foldl_cons]
    by_cases ha : landsOn p a = true
    · have hstep : platformStep p a =
          { p with y := a.y - playerHeight, dy := 0, grounded := true } := by
        unfold platformStep
        rw [if_pos ha]
      rw [hstep, foldl_platformStep_rest rest _ (le_refl (0 : ℚ))]
      refine ⟨rfl, rfl, a, List.mem_cons_self a rest, ?_⟩
      show a.y - playerHeight + playerHeight = a.y
      ring
    · have hstep : platformStep p a = p := by
        unfold platformStep
        rw [if_neg ha]
      rw [hstep]
      have hrest : pl ∈ rest := by
        rcases List.mem_cons.mp hmem with h | h
        · rw [h] at hland
          exact absurd hland ha
        · exact h
      obtain ⟨h1, h2, q, hq, h3⟩ := ih hrest
      exact ⟨h1, h2, q, List.mem_cons_of_mem a hq, h3⟩

/-- The body of the platform loop runs its landing branch for some platform only
if that platform satisfies the landing condition when the loop starts. -/
theorem landsOn_during_loop (pre : List Platform) (p : Player) (pl : Platform)
    (h : landsOn (pre.foldl platformStep p) pl = true) : landsOn p pl = true := by
  by_cases hex : ∃ q ∈ pre, landsOn p q = true
  · obtain ⟨q, hq, hl⟩ := hex
    have hdy := (foldl_platformStep_lands pre p q hq hl).1
    unfold landsOn at h
    rw [hdy] at h
    simp at h
  · have hid : ∀ (l : List Platform), (∀ q ∈ l, ¬ landsOn p q = true) →
        l.foldl platformStep p = p := by
      intro l
      induction l with
      | nil => intro _; rfl
      | cons a rest ih =>
        intro hall
        have hstep : platformStep p a = p := by
          unfold platformStep
          rw [if_neg (hall a (List.mem_cons_self a rest))]
        rw [List.foldl_cons, hstep]
        exact ih (fun q hq => hall q (List.mem_cons_of_mem a hq))
    rw [hid pre (fun q hq hl => hex ⟨q, hq, hl⟩)] at h
    exact h

end landing

section hazards

theorem spawnAsteroid_eq (c : Canvas) (rnd : Rand) (w : World) :
    spawnAsteroid c rnd w = { w with asteroids := w.asteroids ++ [newAsteroid c rnd] } := rfl

theorem spawnRobot_eq (c : Canvas) (rnd : Rand) (w : World) :
    spawnRobot c rnd w = { w with robots := w.robots ++ [newRobot c rnd] } := rfl

theorem spawnPhase_asteroids (c : Canvas) (rnd : Rand) (w : World) :
    (spawnPhase c rnd w).asteroids =
      w.asteroids ++ (if w.gameTime % 120 = 0 then [newAsteroid c rnd] else []) := by
  unfold spawnPhase
  simp only [spawnAsteroid_eq, spawnRobot_eq, spawnBone]
  split_ifs <;> simp

theorem spawnPhase_robots (c : Canvas) (rnd : Rand) (w : World) :
    (spawnPhase c rnd w).robots =
      w.robots ++ (if w.gameTime % 180 = 0 then [newRobot c rnd] else []) := by
  unfold spawnPhase
  simp only [spawnAsteroid_eq, spawnRobot_eq, spawnBone]
  split_ifs <;> simp

/-- The asteroid loop visits the asteroids in order and moves each by the factor
of the think mode, which the loop does not change. -/
theorem foldl_asteroidStep_visited (c : Canvas) (l : List Asteroid) :
    ∀ st : LoopState Asteroid,
      (l.foldl (asteroidStep c) st).visited =
        st.visited ++ l.map (moveAsteroid st.world.player.thinkMode) ∧
      (l.foldl (asteroidStep c) st).world.player.thinkMode = st.world.player.thinkMode := by
  induction l with
  | nil => intro st; simp
  | cons a rest ih =>
    intro st
    rw [List.foldl_cons]
    obtain ⟨h1, h2⟩ := ih (asteroidStep c st a)
    have hthink : (asteroidStep c st a).world.player.thinkMode = st.world.player.thinkMode := by
      unfold asteroidStep
      dsimp only
      split <;> rfl
    have hvis : (asteroidStep c st a).visited =
        st.visited ++ [moveAsteroid st.world.player.thinkMode a] := by
      unfold asteroidStep
      dsimp only
      split <;> rfl
    rw [h1, h2, hthink, hvis]
    simp

/-- The robot loop visits the robots in order and moves each by the factor of
the think mode, which the loop does not change. -/
theorem foldl_robotStep_visited (c : Canvas) (ps : List Platform) (l : List Robot) :
    ∀ st : LoopState Robot,
      (l.foldl (robotStep c ps) st).visited =
        st.visited ++ l.map (moveRobot ps st.world.player.thinkMode) ∧
      (l.foldl (robotStep c ps) st).world.player.thinkMode = st.world.player.thinkMode := by
  induction l with
  | nil => intro st; simp
  | cons a rest ih =>
    intro st
    rw [List.foldl_cons]
    obtain ⟨h1, h2⟩ := ih (robotStep c ps st a)
    have hthink : (robotStep c ps st a).world.player.thinkMode = st.world.player.thinkMode := by
      unfold robotStep
      dsimp only
      split <;> rfl
    have hvis : (robotStep c ps st a).visited =
        st.visited ++ [moveRobot ps st.world.player.thinkMode a] := by
      unfold robotStep
      dsimp only
      split <;> rfl
    rw [h1, h2, hthink, hvis]
    simp

/-- Without a collision in the asteroid loop the asteroid array holds the
asteroids that passed the filter of line 138, each moved. -/
theorem asteroidsPhase_nohit (c : Canvas) (w : World) (h : (asteroidsPhase c w).hit = false) :
    (asteroidsPhase c w).world =
      { w with asteroids :=
                 List.map (moveAsteroid w.player.thinkMode)
                   (w.asteroids.filter (fun a => decide (a.x > -a.width))) } := by
  rcases asteroidsPhase_cases c w with ⟨_, l, hl⟩ | ⟨hh, _⟩
  · have hast : (asteroidsPhase c w).world.asteroids =
        (w.asteroids.filter (fun a => decide (a.x > -a.width))).map
          (moveAsteroid w.player.thinkMode) := by
      unfold asteroidsPhase at h ⊢
      dsimp only at h ⊢
      split_ifs at h ⊢ with hs
      · rw [hs] at h
        exact absurd h (by simp)
      · dsimp only
        rw [(foldl_asteroidStep_visited c _ _).1]
        simp
    rw [hl] at hast ⊢
    dsimp only at hast
    rw [hast]
  · rw [hh] at h
    exact absurd h (by simp)

/-- Without a collision in the robot loop the robot array holds the robots, each
moved and turned by the loop body. -/
theorem robotsPhase_nohit (c : Canvas) (ps : List Platform) (w : World)
    (h : (robotsPhase c ps w).hit = false) :
    (robotsPhase c ps w).world =
      { w with robots := w.robots.map (moveRobot ps w.player.thinkMode) } := by
  rcases robotsPhase_cases c ps w with ⟨_, l, hl⟩ | ⟨hh, _⟩
  · have hrob : (robotsPhase c ps w).world.robots =
        w.robots.map (moveRobot ps w.player.thinkMode) := by
      unfold robotsPhase at h ⊢
      dsimp only at h ⊢
      split_ifs at h ⊢ with hs
      · rw [hs] at h
        exact absurd h (by simp)
      · dsimp only
        rw [(foldl_robotStep_visited c ps _ _).1]
        simp
    rw [hl] at hrob ⊢
    dsimp only at hrob
    rw [hrob]
  · rw [hh] at h
    exact absurd h (by simp)

theorem playerPhase_asteroids (c : Canvas) (ps : List Platform) (keys : Keys) (w : World) :
    (playerPhase c ps keys w).asteroids = w.asteroids := by
  show (revealStep keys (inputPhase keys w)).asteroids = w.asteroids
  unfold revealStep
  split_ifs <;> rfl

theorem playerPhase_robots (c : Canvas) (ps : List Platform) (keys : Keys) (w : World) :
    (playerPhase c ps keys w).robots = w.robots := by
  show (revealStep keys (inputPhase keys w)).robots = w.robots
  unfold revealStep
  split_ifs <;> rfl

/-- The hazard arrays of the frame without a hazard collision. -/
theorem frame_hazards_nohit (c : Canvas) (ps : List Platform) (keys : Keys) (w : World)
    (h : hazardHit c ps keys w = false) :
    (frame c ps keys w).asteroids =
      (w.asteroids.filter (fun a => decide (a.x > -a.width))).map
        (moveAsteroid (frame c ps keys w).player.thinkMode) ∧
    (frame c ps keys w).robots =
      w.robots.map (moveRobot ps (frame c ps keys w).player.thinkMode) := by
  have hp := (frame_nohit c ps keys w h).1
  unfold hazardHit at h
  rw [Bool.or_eq_false_iff] at h
  have ha := asteroidsPhase_nohit c (playerPhase c ps keys w) h.1
  have hr := robotsPhase_nohit c ps _ h.2
  rw [hp]
  unfold frame
  rw [hr, ha]
  constructor
  · show List.map (moveAsteroid (playerPhase c ps keys w).player.thinkMode)
      (List.filter (fun a => decide (a.x > -a.width)) (playerPhase c ps keys w).asteroids) = _
    rw [playerPhase_asteroids]
  · show List.map (moveRobot ps (playerPhase c ps keys w).player.thinkMode)
      (playerPhase c ps keys w).robots = _
    rw [playerPhase_robots]

/-- Line 155 changes `x` by the speed the robot had before any turn. -/
theorem moveRobot_x (ps : List Platform) (think : Bool) (r : Robot) :
    (moveRobot ps think r).x = r.x + r.speed * speedFactor think ∧
    (moveRobot ps think r).y = r.y ∧ (moveRobot ps think r).width = r.width ∧
    (moveRobot ps think r).height = r.height := by
  unfold moveRobot speedFactor
  dsimp only
  split
  · split_ifs <;> exact ⟨rfl, rfl, rfl, rfl⟩
  · exact ⟨rfl, rfl, rfl, rfl⟩

end hazards

section vertical

/-- The jump of the input step: taken exactly when `Space` is held and the
player is grounded; the arrow keys change only `x`. -/
theorem movePlayer_vertical (keys : Keys) (p : Player) :
    (movePlayer keys p).y = p.y ∧
    ((keys.space && p.grounded) = false →
      (movePlayer keys p).dy = p.dy ∧ (movePlayer keys p).grounded = p.grounded) ∧
    ((keys.space && p.grounded) = true →
      (movePlayer keys p).dy = jumpPower ∧ (movePlayer keys p).grounded = false) := by
  unfold movePlayer
  dsimp only
  cases hl : keys.arrowLeft <;> cases hr : keys.arrowRight <;>
    cases hj : (keys.space && p.grounded) <;> simp [hj]

theorem gravityPhase_vertical (keys : Keys) (w : World) :
    (gravityPhase keys w).player.dy = (movePlayer keys w.player).dy + gravity ∧
    (gravityPhase keys w).player.y =
      (movePlayer keys w.player).y + ((movePlayer keys w.player).dy + gravity) ∧
    (gravityPhase keys w).player.grounded = (movePlayer keys w.player).grounded := by
  unfold gravityPhase applyGravity
  dsimp only
  rw [(thinkStart_fields keys _).2.1, (thinkStart_fields keys _).2.2.1,
    (thinkStart_fields keys _).2.2.2.1, (revealStep_fields keys _).2.2.2.1,
    (revealStep_fields keys _).2.2.2.2.1, (revealStep_fields keys _).2.2.2.2.2.1]
  exact ⟨rfl, rfl, rfl⟩

/-- Above the floor `keepInBounds` leaves the vertical fields alone. -/
theorem keepInBounds_vertical (c : Canvas) (p : Player) (h : ¬ p.y + playerHeight > c.height) :
    (keepInBounds c p).y = p.y ∧ (keepInBounds c p).dy = p.dy ∧
    (keepInBounds c p).grounded = p.grounded := by
  unfold keepInBounds
  dsimp only
  split_ifs <;> exact ⟨rfl, rfl, rfl⟩

/-- When no platform satisfies the landing condition the loop body changes nothing. -/
theorem foldl_platformStep_none (ps : List Platform) (p : Player)
    (h : ∀ q ∈ ps, landsOn p q = false) : ps.foldl platformStep p = p := by
  induction ps with
  | nil => rfl
  | cons a rest ih =>
    have hstep : platformStep p a = p := by
      unfold platformStep
      rw [if_neg (by rw [h a (List.mem_cons_self a rest)]; simp)]
    rw [List.foldl_cons, hstep]
    exact ih (fun q hq => h q (List.mem_cons_of_mem a hq))

/-- The vertical fields of the player phase are those of the platform loop. -/
theorem playerPhase_vertical (c : Canvas) (ps : List Platform) (keys : Keys) (w : World) :
    (playerPhase c ps keys w).player.y =
      (platformLoop ps (keepInBounds c (gravityPhase keys w).player)).y ∧
    (playerPhase c ps keys w).player.dy =
      (platformLoop ps (keepInBounds c (gravityPhase keys w).player)).dy ∧
    (playerPhase c ps keys w).player.grounded =
      (platformLoop ps (keepInBounds c (gravityPhase keys w).player)).grounded := by
  unfold playerPhase physicsPhase
  dsimp only
  exact ⟨(thinkTick_fields _).2.1, (thinkTick_fields _).2.2.1, (thinkTick_fields _).2.2.2.1⟩

/-- The platforms of the fixed list lie at least 20 above the floor line. -/
theorem platforms_y (c : Canvas) (p : Platform) (h : p ∈ platforms c) : p.y ≤ c.height - 20 := by
  unfold platforms at h
  simp only [List.mem_cons, List.mem_singleton, List.not_mem_nil, or_false] at h
  rcases h with h | h | h <;> rw [h] <;> dsimp only <;> linarith

end vertical

section invariants

/-- A player that is not grounded, not rising and between the start height and
the floor is in the same situation after an update: it falls through the lowest
platform, whose top it never crosses from above, and the floor does not ground it. -/
theorem update_floor_inv (c : Canvas) (keys : Keys) (rnd : Rand) (w : World)
    (hg : w.player.grounded = false) (hdy : 0 ≤ w.player.dy)
    (hlo : c.height - 50 ≤ w.player.y) (_hhi : w.player.y ≤ c.height - 40) :
    (update c keys rnd w).player.grounded = false ∧ 0 ≤ (update c keys rnd w).player.dy ∧
    c.height - 50 ≤ (update c keys rnd w).player.y ∧
    (update c keys rnd w).player.y ≤ c.height - 40 := by
  have hj : (keys.space && w.player.grounded) = false := by rw [hg]; simp
  obtain ⟨my, mj, _⟩ := movePlayer_vertical keys w.player
  obtain ⟨mdy, mg⟩ := mj hj
  obtain ⟨gdy, gy, gg⟩ := gravityPhase_vertical keys w
  rw [mdy] at gdy gy
  rw [my] at gy
  have hpp : (playerPhase c (platforms c) keys w).player.grounded = false ∧
      0 ≤ (playerPhase c (platforms c) keys w).player.dy ∧
      c.height - 50 ≤ (playerPhase c (platforms c) keys w).player.y ∧
      (playerPhase c (platforms c) keys w).player.y ≤ c.height - 40 := by
    by_cases hfl : (gravityPhase keys w).player.y + playerHeight > c.height
    · obtain ⟨fy, fdy, fg⟩ := floor_clamp c (platforms c) keys w hfl
      rw [fy, fdy, fg]
      unfold playerHeight
      exact ⟨rfl, le_refl _, by linarith, by linarith⟩
    · obtain ⟨ky, kdy, _⟩ := keepInBounds_vertical c _ hfl
      have hnone : ∀ q ∈ platforms c,
          landsOn { keepInBounds c (gravityPhase keys w).player with grounded := false } q
            = false := by
        intro q hq
        have hqy := platforms_y c q hq
        unfold landsOn
        have : ¬ ((keepInBounds c (gravityPhase keys w).player).y + playerHeight -
            (keepInBounds c (gravityPhase keys w).player).dy ≤ q.y) := by
          rw [ky, kdy, gy, gdy]
          unfold playerHeight
          intro hle
          linarith
        simp only [this, decide_False, Bool.and_false]
      have hloop : platformLoop (platforms c) (keepInBounds c (gravityPhase keys w).player) =
          { keepInBounds c (gravityPhase keys w).player with grounded := false } := by
        unfold platformLoop
        exact foldl_platformStep_none _ _ hnone
      obtain ⟨py, pdy, pg⟩ := playerPhase_vertical c (platforms c) keys w
      rw [hloop] at py pdy pg
      rw [pg, pdy, py]
      dsimp only
      rw [ky, kdy, gy, gdy]
      unfold playerHeight at hfl
      rw [gy] at hfl
      unfold gravity at hfl ⊢
      exact ⟨rfl, by linarith, by linarith, by linarith⟩
  rw [update_player, frame_player]
  split_ifs
  · exact ⟨hpp.1, le_refl _, le_refl _, by show c.height - 50 ≤ c.height - 40; linarith⟩
  · exact hpp

/-- In a reachable state the player is not grounded, not rising and between the
start height and the floor. -/
theorem reachable_floor_inv (c : Canvas) (w : World) (h : Reachable c w) :
    w.player.grounded = false ∧ 0 ≤ w.player.dy ∧
    c.height - 50 ≤ w.player.y ∧ w.player.y ≤ c.height - 40 := by
  induction h with
  | init => exact ⟨rfl, le_refl _, le_refl _, by show c.height - 50 ≤ c.height - 40; linarith⟩
  | start rnd => exact ⟨rfl, le_refl _, le_refl _, by show c.height - 50 ≤ c.height - 40; linarith⟩
  | step keys rnd w0 _ ih => exact update_floor_inv c keys rnd w0 ih.1 ih.2.1 ih.2.2.1 ih.2.2.2

/-- The first platform of the list that satisfies the landing condition is the
one the player stands on after the loop body has run over the list. -/
theorem foldl_platformStep_first (ps : List Platform) (p : Player) (q : Platform)
    (h : ps.find? (landsOn p) = some q) :
    (ps.foldl platformStep p).y + playerHeight = q.y ∧ (ps.foldl platformStep p).dy = 0 ∧
    (ps.foldl platformStep p).grounded = true := by
  induction ps with
  | nil => simp at h
  | cons a rest ih =>
    rw [List.foldl_cons]
    by_cases ha : landsOn p a = true
    · have hq : a = q := by
        rw [List.find?_cons_of_pos _ ha] at h
        exact Option.some.inj h
      have hstep : platformStep p a =
          { p with y := a.y - playerHeight, dy := 0, grounded := true } := by
        unfold platformStep
        rw [if_pos ha]
      rw [hstep, foldl_platformStep_rest rest _ (le_refl (0 : ℚ)), ← hq]
      refine ⟨?_, rfl, rfl⟩
      show a.y - playerHeight + playerHeight = a.y
      ring
    · have hstep : platformStep p a = p := by
        unfold platformStep
        rw [if_neg ha]
      rw [hstep]
      rw [List.find?_cons_of_neg _ ha] at h
      exact ih h

/-- The reveal step keeps the parked collection made of hidden bones. -/
theorem revealStep_parked_hidden (keys : Keys) (w : World)
    (h : ∀ b ∈ w.hiddenBones, b.hidden = true) :
    ∀ b ∈ (revealStep keys w).hiddenBones, b.hidden = true := by
  unfold revealStep
  split_ifs
  · intro b hb
    exact (List.mem_filter.mp hb).2
  · intro b hb
    exact absurd hb (List.not_mem_nil b)
  · exact h

theorem update_hiddenBones (c : Canvas) (keys : Keys) (rnd : Rand) (w : World) :
    (update c keys rnd w).hiddenBones = (revealStep keys (inputPhase keys w)).hiddenBones := by
  unfold update
  rw [spawnPhase_hiddenBones, frame_hiddenBones]

/-- In a reachable state every parked bone is hidden. -/
theorem reachable_parked_hidden (c : Canvas) (w : World) (h : Reachable c w) :
    ∀ b ∈ w.hiddenBones, b.hidden = true := by
  induction h with
  | init => intro b hb; exact absurd hb (List.not_mem_nil b)
  | start rnd => intro b hb; exact absurd hb (List.not_mem_nil b)
  | step keys rnd w0 _ ih =>
    rw [update_hiddenBones]
    exact revealStep_parked_hidden keys _ ih

/-- The platform picked by a draw is one of the three, all 200 wide. -/
theorem pickPlatform_mem (c : Canvas) (r : Draw) :
    pickPlatform c r ∈ platforms c ∧ (pickPlatform c r).width = 200 := by
  have hmem : pickPlatform c r ∈ platforms c := List.get_mem _ _ _
  refine ⟨hmem, ?_⟩
  unfold platforms at hmem
  simp only [List.mem_cons, List.mem_singleton, List.not_mem_nil, or_false] at hmem
  rcases hmem with h | h | h <;> rw [h]

end invariants

section collisions

/-- A loop whose body runs the collision block exactly when `test` holds of the
current world and the visited object has run a collision block iff one had run
before the loop or `test` holds, in the world the loop starts from, of some
object of the list. -/
theorem loop_hit_iff {α : Type} (f : LoopState α → α → LoopState α) (test : World → α → Bool)
    (hpos : ∀ st a, test st.world a = true → (f st a).hit = true)
    (hneg : ∀ st a, test st.world a = false →
      (f st a).world = st.world ∧ (f st a).hit = st.hit) :
    ∀ (l : List α) (st : LoopState α),
      (l.foldl f st).hit = true ↔ st.hit = true ∨ ∃ a ∈ l, test st.world a = true := by
  intro l
  induction l with
  | nil => intro st; simp
  | cons a rest ih =>
    intro st
    rw [List.foldl_cons, ih (f st a)]
    cases h : test st.world a
    · obtain ⟨hw, hh⟩ := hneg st a h
      rw [hw, hh]
      constructor
      · rintro (h1 | ⟨b, hb, hbt⟩)
        · exact Or.inl h1
        · exact Or.inr ⟨b, List.mem_cons_of_mem a hb, hbt⟩
      · rintro (h1 | ⟨b, hb, hbt⟩)
        · exact Or.inl h1
        · rcases List.mem_cons.mp hb with hba | hbr
          · rw [hba, h] at hbt
            exact absurd hbt (by simp)
          · exact Or.inr ⟨b, hbr, hbt⟩
    · constructor
      · intro _
        exact Or.inr ⟨a, List.mem_cons_self a rest, h⟩
      · intro _
        exact Or.inl (hpos st a h)

/-- The asteroid loop runs its collision block iff some asteroid that passed the
filter of line 138 overlaps, once moved, the player that enters the loop. -/
theorem asteroidsPhase_hit_iff (c : Canvas) (w : World) :
    (asteroidsPhase c w).hit = true ↔
      ∃ a ∈ w.asteroids, a.x > -a.width ∧
        collides w.player.box (moveAsteroid w.player.thinkMode a).box = true := by
  have hhit : (asteroidsPhase c w).hit =
      ((w.asteroids.filter (fun a => decide (a.x > -a.width))).foldl (asteroidStep c)
        { world := { w with asteroids := w.asteroids.filter (fun a => decide (a.x > -a.width)) },
          hit := false, visited := [] }).hit := by
    unfold asteroidsPhase
    dsimp only
    split_ifs <;> rfl
  rw [hhit, loop_hit_iff (asteroidStep c)
    (fun w a => collides w.player.box (moveAsteroid w.player.thinkMode a).box)]
  · simp only [Bool.false_eq_true, false_or, List.mem_filter, decide_eq_true_eq]
    constructor
    · rintro ⟨a, ⟨ha, hx⟩, hc⟩
      exact ⟨a, ha, hx, hc⟩
    · rintro ⟨a, ha, hx, hc⟩
      exact ⟨a, ⟨ha, hx⟩, hc⟩
  · intro st a h
    unfold asteroidStep
    dsimp only at h ⊢
    rw [if_pos h]
  · intro st a h
    unfold asteroidStep
    dsimp only at h ⊢
    rw [if_neg (by rw [h]; simp)]
    exact ⟨rfl, rfl⟩

/-- The robot loop runs its collision block iff some robot overlaps, once moved,
the player that enters the loop. -/
theorem robotsPhase_hit_iff (c : Canvas) (ps : List Platform) (w : World) :
    (robotsPhase c ps w).hit = true ↔
      ∃ r ∈ w.robots, collides w.player.box (moveRobot ps w.player.thinkMode r).box = true := by
  have hhit : (robotsPhase c ps w).hit =
      (w.robots.foldl (robotStep c ps) { world := w, hit := false, visited := [] }).hit := by
    unfold robotsPhase
    dsimp only
    split_ifs <;> rfl
  rw [hhit, loop_hit_iff (robotStep c ps)
    (fun w r => collides w.player.box (moveRobot ps w.player.thinkMode r).box)]
  · simp only [Bool.false_eq_true, false_or]
  · intro st a h
    unfold robotStep
    dsimp only at h ⊢
    rw [if_pos h]
  · intro st a h
    unfold robotStep
    dsimp only at h ⊢
    rw [if_neg (by rw [h]; simp)]
    exact ⟨rfl, rfl⟩

/-- A collision block runs during the update iff, for the player as the player
phase leaves it, some asteroid that passed the filter of line 138 or some robot
overlaps the player right after its move.  (A hazard tested against the
teleported player comes after a first collision.) -/
theorem hazardHit_iff (c : Canvas) (ps : List Platform) (keys : Keys) (w : World) :
    hazardHit c ps keys w = true ↔
      (∃ a ∈ w.asteroids, a.x > -a.width ∧
        collides (playerPhase c ps keys w).player.box
          (moveAsteroid (playerPhase c ps keys w).player.thinkMode a).box = true) ∨
      (∃ r ∈ w.robots,
        collides (playerPhase c ps keys w).player.box
          (moveRobot ps (playerPhase c ps keys w).player.thinkMode r).box = true) := by
  have ha := asteroidsPhase_hit_iff c (playerPhase c ps keys w)
  rw [playerPhase_asteroids] at ha
  unfold hazardHit
  rw [Bool.or_eq_true, ha]
  cases hh : (asteroidsPhase c (playerPhase c ps keys w)).hit
  · have hr := robotsPhase_hit_iff c ps (asteroidsPhase c (playerPhase c ps keys w)).world
    rw [asteroidsPhase_nohit c _ hh] at hr ⊢
    dsimp only at hr
    exact or_congr Iff.rfl (hr.trans (by rw [playerPhase_robots]))
  · have := ha.mp hh
    constructor
    · intro _
      exact Or.inl this
    · intro _
      exact Or.inl this

end collisions

section rounding

theorem pow2_pos (e : Int) : 0 < pow2 e := by
  unfold pow2
  split_ifs <;> positivity

theorem ulp_pos (q : ℚ) : 0 < ulp q := pow2_pos _

/-- Rounding to the nearest integer moves by at most one half. -/
theorem roundHalfEven_bound (t : ℚ) : |(roundHalfEven t : ℚ) - t| ≤ 1 / 2 := by
  have h0 : (Int.floor t : ℚ) ≤ t := Int.floor_le t
  have h1 : t < (Int.floor t : ℚ) + 1 := Int.lt_floor_add_one t
  unfold roundHalfEven
  dsimp only
  rw [abs_le]
  split_ifs with ha hb hc
  · constructor <;> linarith
  · push_cast
    constructor <;> linarith
  · constructor <;> linarith
  · push_cast
    constructor <;> linarith

/-- An integer is its own rounding. -/
theorem roundHalfEven_int (n : Int) : roundHalfEven (n : ℚ) = n := by
  unfold roundHalfEven
  dsimp only
  rw [Int.floor_intCast, if_pos]
  norm_num

/-- The result of `roundDouble` is within half a unit in the last place. -/
theorem roundDouble_bound (q : ℚ) : |roundDouble q - q| ≤ ulp q / 2 := by
  have hu := ulp_pos q
  unfold roundDouble
  split_ifs with h0
  · rw [h0]
    simp only [sub_self, abs_zero]
    have := ulp_pos 0
    linarith
  · have hb := roundHalfEven_bound (q / ulp q)
    have heq : (roundHalfEven (q / ulp q) : ℚ) * ulp q - q =
        ((roundHalfEven (q / ulp q) : ℚ) - q / ulp q) * ulp q := by
      field_simp
    rw [heq, abs_mul, abs_of_pos hu]
    calc |(roundHalfEven (q / ulp q) : ℚ) - q / ulp q| * ulp q
        ≤ 1 / 2 * ulp q := mul_le_mul_of_nonneg_right hb (le_of_lt hu)
      _ = ulp q / 2 := by ring

/-- A multiple of its own unit in the last place is not changed by `roundDouble`. -/
theorem roundDouble_exact (q : ℚ) (n : Int) (h : q = n * ulp q) : roundDouble q = q := by
  have hu := ulp_pos q
  unfold roundDouble
  split_ifs with h0
  · exact h0.symm
  · have hdiv : q / ulp q = (n : ℚ) := by
      rw [div_eq_iff (ne_of_gt hu)]
      exact h
    rw [hdiv, roundHalfEven_int]
    exact h.symm

end rounding

section activation

/-- On the update that activates reveal mode (`d` held, `deepSearch` false
before, no hazard collision) every hidden bone of the active collection is
parked, whether or not it overlaps the player, and the score counts only the
overlapping bones that are not hidden. -/
theorem activation_parks_hidden (c : Canvas) (keys : Keys) (rnd : Rand) (w : World)
    (hd : keys.d = true) (hds : w.player.deepSearch = false)
    (hno : hazardHit c (platforms c) keys w = false) :
    (update c keys rnd w).player.deepSearch = true ∧
    (update c keys rnd w).hiddenBones = w.bones.filter (fun b => b.hidden) ∧
    (frame c (platforms c) keys w).bones =
      (w.bones.filter (fun b => !b.hidden)).filter
        (fun b => !collides (update c keys rnd w).player.box b.box) ∧
    (update c keys rnd w).score = w.score +
      ((w.bones.filter (fun b => !b.hidden)).filter
        (fun b => collides (update c keys rnd w).player.box b.box)).length := by
  have hrev : revealStep keys (inputPhase keys w) =
      { inputPhase keys w with
          player := { (inputPhase keys w).player with deepSearch := true },
          hiddenBones := w.bones.filter (fun b => b.hidden),
          bones := w.bones.filter (fun b => !b.hidden) } := by
    unfold revealStep
    rw [if_pos (by rw [hd, inputPhase_deepSearch, hds]; rfl)]
    rfl
  obtain ⟨hp, _, hbones, hscore⟩ := frame_nohit c (platforms c) keys w hno
  have hpl : (update c keys rnd w).player = (playerPhase c (platforms c) keys w).player := by
    rw [update_player, hp]
  have hdeep : (playerPhase c (platforms c) keys w).player.deepSearch = true := by
    rw [playerPhase_deepSearch, hrev]
  have hact : (revealStep keys (inputPhase keys w)).bones =
      w.bones.filter (fun b => !b.hidden) := by
    rw [hrev]
  rw [playerPhase_bones, hact] at hbones hscore
  have hcol : collected (playerPhase c (platforms c) keys w).player =
      fun x => collides (playerPhase c (platforms c) keys w).player.box x.box := by
    funext x
    simp [collected, hdeep]
  rw [hpl]
  refine ⟨hdeep, ?_, ?_, ?_⟩
  · rw [update_hiddenBones, hrev]
  · rw [hbones, hcol]
  · unfold update
    rw [spawnPhase_score, hscore, hcol]

end activation

/-! ## The claims -/

/-- C1: if, for the player as lines 85-135 leave it, some asteroid that passed
the filter of line 138 or some robot overlaps the player right after its move,
the update finishes with `score = 0`, the player at the start position
`(50, canvas.height - 50)` and `dy = 0`, whatever bones overlap the player.  By
`hazardHit_iff` this covers every update in which a collision test of line 141
or 160 succeeds: a hazard tested against the teleported player comes after a
first collision. -/
theorem hazard_collision_resets (c : Canvas) (keys : Keys) (rnd : Rand) (w : World)
    (h : (∃ a ∈ w.asteroids, a.x > -a.width ∧
        collides (playerPhase c (platforms c) keys w).player.box
          (moveAsteroid (playerPhase c (platforms c) keys w).player.thinkMode a).box = true) ∨
      (∃ r ∈ w.robots,
        collides (playerPhase c (platforms c) keys w).player.box
          (moveRobot (platforms c) (playerPhase c (platforms c) keys w).player.thinkMode r).box
            = true)) :
    (update c keys rnd w).score = 0 ∧
    (update c keys rnd w).player.x = 50 ∧
    (update c keys rnd w).player.y = c.height - 50 ∧
    (update c keys rnd w).player.dy = 0 := by
  have hit : hazardHit c (platforms c) keys w = true := (hazardHit_iff c _ keys w).mpr h
  unfold update
  rw [spawnPhase_score, spawnPhase_player, frame_hit c _ keys w hit]
  exact ⟨rfl, rfl, rfl, rfl⟩

/-- The reset on `worldAsteroidHit`, where an asteroid reaches the player, and on
`worldHit`, where a robot does; in both a visible bone overlaps the player. -/
theorem hazard_collision_resets_witness :
    (collides (playerPhase canvas800 (platforms canvas800) noKeys worldAsteroidHit).player.box
        (moveAsteroid (playerPhase canvas800 (platforms canvas800) noKeys
          worldAsteroidHit).player.thinkMode ⟨74, 340, 30, 30, 4⟩).box = true ∧
      collides (playerPhase canvas800 (platforms canvas800) noKeys worldAsteroidHit).player.box
        plainBone.box = true ∧
      (update canvas800 noKeys rand0 worldAsteroidHit).score = 0 ∧
      (update canvas800 noKeys rand0 worldAsteroidHit).player.x = 50 ∧
      (update canvas800 noKeys rand0 worldAsteroidHit).player.y = canvas800.height - 50 ∧
      (update canvas800 noKeys rand0 worldAsteroidHit).player.dy = 0) ∧
    (collides (playerPhase canvas800 (platforms canvas800) keysD worldHit).player.box
        (moveRobot (platforms canvas800) (playerPhase canvas800 (platforms canvas800) keysD
          worldHit).player.thinkMode ⟨91, 340, 40, 40, -2⟩).box = true ∧
      (update canvas800 keysD rand0 worldHit).score = 0 ∧
      (update canvas800 keysD rand0 worldHit).player.x = 50 ∧
      (update canvas800 keysD rand0 worldHit).player.y = canvas800.height - 50 ∧
      (update canvas800 keysD rand0 worldHit).player.dy = 0) :=
  ⟨⟨by decide!, by decide!,
      hazard_collision_resets canvas800 noKeys rand0 worldAsteroidHit
        (Or.inl ⟨⟨74, 340, 30, 30, 4⟩, List.mem_cons_self _ _, by decide!, by decide!⟩)⟩,
    ⟨by decide!,
      hazard_collision_resets canvas800 keysD rand0 worldHit
        (Or.inr ⟨⟨91, 340, 40, 40, -2⟩, List.mem_cons_self _ _, by decide!⟩)⟩⟩

/-- C2: hidden bones are not collectable in reveal mode.  In `worldHiddenTwo`
two hidden bones and a visible one overlap the player and no hazard is near.
The update with `d` held activates reveal mode, parks both hidden bones and
scores the visible one only; a second update with `d` held leaves them parked
and the score at 1; when `d` is released they return to the active collection,
still overlapping the player and still not collected. -/
theorem reveal_activation_parks_hidden :
    worldHiddenTwo.bones = [hiddenBone, plainBone, hiddenBoneTwo] ∧
    hiddenBone.hidden = true ∧ hiddenBoneTwo.hidden = true ∧ keysD.d = true ∧
    worldHiddenTwo.player.deepSearch = false ∧ worldHiddenTwo.score = 0 ∧
    hazardHit canvas800 (platforms canvas800) keysD worldHiddenTwo = false ∧
    collides (update canvas800 keysD rand0 worldHiddenTwo).player.box hiddenBone.box = true ∧
    collides (update canvas800 keysD rand0 worldHiddenTwo).player.box hiddenBoneTwo.box = true ∧
    (update canvas800 keysD rand0 worldHiddenTwo).player.deepSearch = true ∧
    (update canvas800 keysD rand0 worldHiddenTwo).bones = [] ∧
    (update canvas800 keysD rand0 worldHiddenTwo).hiddenBones = [hiddenBone, hiddenBoneTwo] ∧
    (update canvas800 keysD rand0 worldHiddenTwo).score = 1 ∧
    (update canvas800 keysD rand0
      (update canvas800 keysD rand0 worldHiddenTwo)).player.deepSearch = true ∧
    collides (update canvas800 keysD rand0
      (update canvas800 keysD rand0 worldHiddenTwo)).player.box hiddenBone.box = true ∧
    (update canvas800 keysD rand0
      (update canvas800 keysD rand0 worldHiddenTwo)).hiddenBones = [hiddenBone, hiddenBoneTwo] ∧
    (update canvas800 keysD rand0 (update canvas800 keysD rand0 worldHiddenTwo)).score = 1 ∧
    collides (update canvas800 noKeys rand0 (update canvas800 keysD rand0
      (update canvas800 keysD rand0 worldHiddenTwo))).player.box hiddenBone.box = true ∧
    (update canvas800 noKeys rand0 (update canvas800 keysD rand0
      (update canvas800 keysD rand0 worldHiddenTwo))).bones = [hiddenBone, hiddenBoneTwo] ∧
    (update canvas800 noKeys rand0 (update canvas800 keysD rand0
      (update canvas800 keysD rand0 worldHiddenTwo))).score = 1 := by
  decide!

/-- What line 174 does for a hidden bone that is still in the active collection
in reveal mode (one spawned while `d` is held): when reveal mode is already
active before the update and the reveal key is held, a hidden bone of the active
collection that overlaps the player's box after the update (no hazard collision)
is removed from the active collection, and the score grows by the number of
overlapping bones of the active collection, this one among them. -/
theorem revealed_hidden_collected (c : Canvas) (keys : Keys) (rnd : Rand) (w : World) (b : Bone)
    (hd : keys.d = true) (hds : w.player.deepSearch = true)
    (hb : b ∈ w.bones) (_hh : b.hidden = true)
    (hno : hazardHit c (platforms c) keys w = false)
    (hov : collides (update c keys rnd w).player.box b.box = true) :
    b ∉ (frame c (platforms c) keys w).bones ∧
    (update c keys rnd w).bones = (frame c (platforms c) keys w).bones ++
      (if (w.gameTime + 1) % 60 = 0 then [newBone c rnd] else []) ∧
    b ∈ w.bones.filter (fun x => collides (update c keys rnd w).player.box x.box) ∧
    (update c keys rnd w).score = w.score +
      (w.bones.filter (fun x => collides (update c keys rnd w).player.box x.box)).length := by
  have hrev : revealStep keys (inputPhase keys w) = inputPhase keys w :=
    revealStep_held_active keys _ hd ((inputPhase_deepSearch keys w).trans hds)
  obtain ⟨hp, _, hbones, hscore⟩ := frame_nohit c (platforms c) keys w hno
  have hpl : (update c keys rnd w).player = (playerPhase c (platforms c) keys w).player := by
    unfold update
    rw [spawnPhase_player, hp]
  have hdeep : (playerPhase c (platforms c) keys w).player.deepSearch = true := by
    rw [playerPhase_deepSearch, hrev, inputPhase_deepSearch, hds]
  have hcol : ∀ x : Bone, collected (playerPhase c (platforms c) keys w).player x =
      collides (playerPhase c (platforms c) keys w).player.box x.box := by
    intro x
    simp [collected, hdeep]
  rw [playerPhase_bones, hrev, inputPhase_bones] at hbones hscore
  rw [hpl] at hov ⊢
  refine ⟨?_, ?_, ?_, ?_⟩
  · rw [hbones]
    simp [hcol, hov]
  · unfold update
    rw [spawnPhase_bones]
    rw [frame_gameTime]
  · exact List.mem_filter.mpr ⟨hb, hov⟩
  · unfold update
    rw [spawnPhase_score, hscore]
    have hfun : collected (playerPhase c (platforms c) keys w).player =
        fun x => collides (playerPhase c (platforms c) keys w).player.box x.box := funext hcol
    rw [hfun]

/-- The collection of the hidden bone of `worldRevealed`, already in reveal mode. -/
theorem revealed_hidden_collected_witness :
    keysD.d = true ∧ worldRevealed.player.deepSearch = true ∧
    hiddenBone ∈ worldRevealed.bones ∧ hiddenBone.hidden = true ∧
    hazardHit canvas800 (platforms canvas800) keysD worldRevealed = false ∧
    collides (update canvas800 keysD rand0 worldRevealed).player.box hiddenBone.box = true ∧
    hiddenBone ∉ (frame canvas800 (platforms canvas800) keysD worldRevealed).bones ∧
    (update canvas800 keysD rand0 worldRevealed).score = worldRevealed.score +
      (worldRevealed.bones.filter
        (fun x => collides (update canvas800 keysD rand0 worldRevealed).player.box x.box)).length :=
  have h := revealed_hidden_collected canvas800 keysD rand0 worldRevealed hiddenBone
    (by decide!) (by decide!) (by decide!) (by decide!) (by decide!) (by decide!)
  ⟨by decide!, by decide!, by decide!, by decide!, by decide!, by decide!, h.1, h.2.2.2⟩

/-- C3: in every reachable state the reveal step of `update` keeps the
collectibles: the bones of the active and parked collections after the step are
a permutation of those before it (same objects with the same `hidden` flags, none
lost or duplicated), so the total number is the same. -/
theorem reveal_step_conserves (c : Canvas) (keys : Keys) (w : World) (h : Reachable c w) :
    ((revealStep keys (inputPhase keys w)).bones ++
        (revealStep keys (inputPhase keys w)).hiddenBones).Perm (w.bones ++ w.hiddenBones) ∧
    (revealStep keys (inputPhase keys w)).bones.length +
        (revealStep keys (inputPhase keys w)).hiddenBones.length =
      w.bones.length + w.hiddenBones.length := by
  have key : ((revealStep keys (inputPhase keys w)).bones ++
        (revealStep keys (inputPhase keys w)).hiddenBones).Perm (w.bones ++ w.hiddenBones) := by
    unfold revealStep
    split_ifs with h1 h2
    · have hds : w.player.deepSearch = false := by
        rw [← inputPhase_deepSearch keys w]
        simp only [Bool.and_eq_true, Bool.not_eq_true'] at h1
        exact h1.2
      rw [reachable_parked c w h hds, List.append_nil]
      show (List.filter (fun b => !b.hidden) w.bones ++ List.filter (fun b => b.hidden) w.bones).Perm
        w.bones
      exact List.perm_append_comm.trans (List.filter_append_perm (fun b => b.hidden) w.bones)
    · show ((w.bones ++ w.hiddenBones) ++ []).Perm (w.bones ++ w.hiddenBones)
      rw [List.append_nil]
    · exact List.Perm.refl _
  refine ⟨key, ?_⟩
  have := key.length_eq
  simpa [List.length_append] using this

/-- The conservation on the world after the three startup spawns, with `d` held. -/
theorem reveal_step_conserves_witness :
    Reachable canvas800 (start canvas800 rand0) ∧
    ((revealStep keysD (inputPhase keysD (start canvas800 rand0))).bones ++
        (revealStep keysD (inputPhase keysD (start canvas800 rand0))).hiddenBones).Perm
      ((start canvas800 rand0).bones ++ (start canvas800 rand0).hiddenBones) :=
  ⟨Reachable.start rand0,
    (reveal_step_conserves canvas800 keysD (start canvas800 rand0) (Reachable.start rand0)).1⟩

/-- C4: the collision block does not clear the parked collection.  With the
reveal key held, the hidden bone of `worldHit` is parked by the reveal step; the
robot then hits the player on a frame with no spawn, and the update ends with
the asteroid, robot and active bone collections empty and the parked collection
still holding the hidden bone. -/
theorem collision_keeps_parked :
    hazardHit canvas800 (platforms canvas800) keysD worldHit = true ∧
    (update canvas800 keysD rand0 worldHit).gameTime % 60 ≠ 0 ∧
    (update canvas800 keysD rand0 worldHit).asteroids = [] ∧
    (update canvas800 keysD rand0 worldHit).robots = [] ∧
    (update canvas800 keysD rand0 worldHit).bones = [] ∧
    (update canvas800 keysD rand0 worldHit).hiddenBones = [hiddenBone] := by
  decide!

/-- C5: the floor landing does not ground the player.  `worldFalling` is the
world five updates after the initial one; in the next update gravity takes the
player's bottom edge below the floor, no hazard collision occurs, and after the
update `y = canvas.height - player.height`, `dy = 0` and `grounded` is false. -/
theorem floor_landing_not_grounded :
    run canvas800 (List.replicate 5 (noKeys, rand0)) (initial canvas800) = worldFalling ∧
    (gravityPhase noKeys worldFalling).player.y + playerHeight > canvas800.height ∧
    hazardHit canvas800 (platforms canvas800) noKeys worldFalling = false ∧
    (update canvas800 noKeys rand0 worldFalling).player.y = canvas800.height - playerHeight ∧
    (update canvas800 noKeys rand0 worldFalling).player.dy = 0 ∧
    (update canvas800 noKeys rand0 worldFalling).player.grounded = false := by
  decide!

/-- C6: think mode lasts exactly 120 updates.  From a state with `thinkMode`
false, after an update with `t` held and then any `n < 119` further updates with
any keys, `thinkMode` is true; after 119 further updates (the 120th update in
all) it is false. -/
theorem think_mode_lasts_120 (c : Canvas) (keys : Keys) (rnd : Rand) (w : World)
    (rest : List (Keys × Rand)) (h0 : w.player.thinkMode = false) (ht : keys.t = true) :
    (∀ n, n < 119 → (run c (rest.take n) (update c keys rnd w)).player.thinkMode = true) ∧
    (119 ≤ rest.length →
      (run c (rest.take 119) (update c keys rnd w)).player.thinkMode = false) := by
  obtain ⟨u1, u2⟩ := update_think c keys rnd w
  have s1 := (thinkStart_think keys w.player).1
  have s2 := (thinkStart_think keys w.player).2
  rw [h0, ht] at s1 s2
  simp only [Bool.false_or, Bool.not_false, Bool.and_self, if_true] at s1 s2
  rw [(thinkTick_think _).1, s1, s2] at u1
  rw [(thinkTick_think _).2, s1, s2, if_pos rfl] at u2
  have hm : (update c keys rnd w).player.thinkMode = true := by
    rw [u1]
    simp [thinkModeDuration]
  have htimer : (update c keys rnd w).player.thinkModeTimer = 119 := by
    rw [u2]
    simp [thinkModeDuration]
  constructor
  · intro n hn
    have hlen : (rest.take n).length ≤ n := by
      rw [List.length_take]
      exact Nat.min_le_left _ _
    exact (run_think_active c (rest.take n) _ hm (by rw [htimer]; omega)).1
  · intro hlen
    have hl : (rest.take 119).length = 119 := by
      rw [List.length_take]
      exact Nat.min_eq_left hlen
    apply run_think_expires c (rest.take 119) _ hm
    · intro hnil
      rw [hnil] at hl
      simp at hl
    · rw [htimer, hl]
      rfl

/-- The countdown from `worldHit` with `t` held on every frame. -/
theorem think_mode_lasts_120_witness :
    worldHit.player.thinkMode = false ∧ keysT.t = true ∧
    (∀ n, n < 119 →
      (run canvas800 ((List.replicate 200 (keysT, rand0)).take n)
        (update canvas800 keysT rand0 worldHit)).player.thinkMode = true) ∧
    (119 ≤ (List.replicate 200 (keysT, rand0)).length →
      (run canvas800 ((List.replicate 200 (keysT, rand0)).take 119)
        (update canvas800 keysT rand0 worldHit)).player.thinkMode = false) :=
  ⟨rfl, rfl,
    think_mode_lasts_120 canvas800 keysT rand0 worldHit (List.replicate 200 (keysT, rand0)) rfl rfl⟩

/-- C7: when `canvas.width >= 90`, after every update the player's `x` lies in
`[0, canvas.width - player.width]`, whatever `x` was before and also when a
hazard collision teleports the player. -/
theorem player_x_in_bounds (c : Canvas) (keys : Keys) (rnd : Rand) (w : World)
    (hc : 90 ≤ c.width) :
    0 ≤ (update c keys rnd w).player.x ∧
    (update c keys rnd w).player.x ≤ c.width - playerWidth := by
  rw [update_player, frame_player]
  split_ifs
  · show (0 : ℚ) ≤ 50 ∧ (50 : ℚ) ≤ c.width - playerWidth
    unfold playerWidth
    constructor <;> linarith
  · rw [physicsPhase_x]
    exact keepInBounds_x c _ (by linarith)

/-- The bounds on the 800 by 400 canvas, on a frame that teleports the player. -/
theorem player_x_in_bounds_witness :
    90 ≤ canvas800.width ∧
    0 ≤ (update canvas800 keysD rand0 worldHit).player.x ∧
    (update canvas800 keysD rand0 worldHit).player.x ≤ canvas800.width - playerWidth :=
  ⟨by decide!, player_x_in_bounds canvas800 keysD rand0 worldHit (by decide!)⟩

/-- C8: if some platform of the list satisfies the landing condition of line 124
for the player that enters the platform loop (by `landsOn_during_loop` this is
the case whenever a platform satisfies it at the moment the loop visits it), the
update finishes with `dy = 0` and `grounded` true, and without a hazard collision
the player's bottom edge is the top of a platform of the list.  The spawns of
`update` leave the player as the frame over the fixed platforms left it. -/
theorem landing_grounds (c : Canvas) (ps : List Platform) (keys : Keys) (w : World)
    (pl : Platform) (hmem : pl ∈ ps)
    (hland : landsOn (physicsPhase c keys w).player pl = true) :
    (frame c ps keys w).player.dy = 0 ∧
    (frame c ps keys w).player.grounded = true ∧
    (hazardHit c ps keys w = false →
      ∃ q ∈ ps, (frame c ps keys w).player.y + playerHeight = q.y) ∧
    (ps = platforms c → ∀ rnd, (update c keys rnd w).player = (frame c ps keys w).player) := by
  have hloop := foldl_platformStep_lands ps
    { (physicsPhase c keys w).player with grounded := false } pl hmem hland
  have hpp : (playerPhase c ps keys w).player.dy = 0 ∧
      (playerPhase c ps keys w).player.grounded = true ∧
      ∃ q ∈ ps, (playerPhase c ps keys w).player.y + playerHeight = q.y := by
    unfold playerPhase
    dsimp only
    rw [(thinkTick_fields _).2.1, (thinkTick_fields _).2.2.1, (thinkTick_fields _).2.2.2.1]
    exact hloop
  refine ⟨?_, ?_, ?_, ?_⟩
  · rw [frame_player]
    split_ifs
    · rfl
    · exact hpp.1
  · rw [frame_player]
    split_ifs
    · exact hpp.2.1
    · exact hpp.2.1
  · intro hno
    rw [frame_player, if_neg (by rw [hno]; simp)]
    exact hpp.2.2
  · intro hps rnd
    rw [hps]
    exact update_player c keys rnd w

/-- The landing of `worldLanding` on the lowest platform. -/
theorem landing_grounds_witness :
    (⟨0, 380, 200, 20⟩ : Platform) ∈ platforms canvas800 ∧
    landsOn (physicsPhase canvas800 noKeys worldLanding).player ⟨0, 380, 200, 20⟩ = true ∧
    (frame canvas800 (platforms canvas800) noKeys worldLanding).player.dy = 0 ∧
    (frame canvas800 (platforms canvas800) noKeys worldLanding).player.grounded = true :=
  have h := landing_grounds canvas800 (platforms canvas800) noKeys worldLanding ⟨0, 380, 200, 20⟩
    (by decide!) (by decide!)
  ⟨by decide!, by decide!, h.1, h.2.1⟩

/-- C9: in an update without a hazard collision, with `p` the player at the end
of the update and the active collection taken after the reveal step, the score
grows by the number of active bones that overlap `p` and are not hidden or met
in reveal mode; exactly these are removed and the others are kept in order
(followed by the bone spawned on this frame, if any).  A bone that is not hidden
stays in the active collection through the reveal step and is removed when it
overlaps `p`. -/
theorem collection_exact (c : Canvas) (keys : Keys) (rnd : Rand) (w : World)
    (hno : hazardHit c (platforms c) keys w = false) :
    (update c keys rnd w).player.deepSearch =
      (revealStep keys (inputPhase keys w)).player.deepSearch ∧
    (update c keys rnd w).score = w.score +
      ((revealStep keys (inputPhase keys w)).bones.filter (fun b =>
        collides (update c keys rnd w).player.box b.box &&
          (!b.hidden || (update c keys rnd w).player.deepSearch))).length ∧
    (frame c (platforms c) keys w).bones =
      (revealStep keys (inputPhase keys w)).bones.filter (fun b =>
        !(collides (update c keys rnd w).player.box b.box &&
          (!b.hidden || (update c keys rnd w).player.deepSearch))) ∧
    (update c keys rnd w).bones = (frame c (platforms c) keys w).bones ++
      (if (w.gameTime + 1) % 60 = 0 then [newBone c rnd] else []) ∧
    (∀ b ∈ w.bones, b.hidden = false → b ∈ (revealStep keys (inputPhase keys w)).bones) ∧
    (∀ b ∈ (revealStep keys (inputPhase keys w)).bones, b.hidden = false →
      collides (update c keys rnd w).player.box b.box = true →
      b ∉ (frame c (platforms c) keys w).bones) := by
  obtain ⟨hp, _, hbones, hscore⟩ := frame_nohit c (platforms c) keys w hno
  have hpl : (update c keys rnd w).player = (playerPhase c (platforms c) keys w).player := by
    rw [update_player, hp]
  rw [playerPhase_bones] at hbones hscore
  rw [hpl]
  refine ⟨playerPhase_deepSearch c _ keys w, ?_, hbones, ?_, ?_, ?_⟩
  · unfold update
    rw [spawnPhase_score, hscore]
    rfl
  · unfold update
    rw [spawnPhase_bones, frame_gameTime]
  · intro b hb hh
    unfold revealStep
    split_ifs
    · exact List.mem_filter.mpr ⟨hb, by simp [hh]⟩
    · exact List.mem_append_left _ hb
    · exact hb
  · intro b _ hh hov
    rw [hbones]
    simp [collected, hov, hh]

/-- The collection on `worldBones` with no key held: only the visible bone is taken. -/
theorem collection_exact_witness :
    hazardHit canvas800 (platforms canvas800) noKeys worldBones = false ∧
    (update canvas800 noKeys rand0 worldBones).score = worldBones.score +
      ((revealStep noKeys (inputPhase noKeys worldBones)).bones.filter (fun b =>
        collides (update canvas800 noKeys rand0 worldBones).player.box b.box &&
          (!b.hidden || (update canvas800 noKeys rand0 worldBones).player.deepSearch))).length ∧
    (update canvas800 noKeys rand0 worldBones).score = 1 ∧
    (update canvas800 noKeys rand0 worldBones).bones = [hiddenBone] :=
  ⟨by decide!, (collection_exact canvas800 noKeys rand0 worldBones (by decide!)).2.1,
    by decide!, by decide!⟩

/-- C10: in an update with the reveal key not held and no hazard collision,
every hidden bone of the active or parked collection is in the active collection
afterwards: the hidden bones kept are exactly the hidden bones of the two
collections, in order, and the score grows only by the number of bones that are
not hidden and overlap the player. -/
theorem hidden_kept_unrevealed (c : Canvas) (keys : Keys) (rnd : Rand) (w : World)
    (hd : keys.d = false) (hno : hazardHit c (platforms c) keys w = false) :
    (∀ b ∈ w.bones ++ w.hiddenBones, b.hidden = true → b ∈ (update c keys rnd w).bones) ∧
    (frame c (platforms c) keys w).bones.filter (fun b => b.hidden) =
      (w.bones ++ w.hiddenBones).filter (fun b => b.hidden) ∧
    (update c keys rnd w).hiddenBones = [] ∧
    (update c keys rnd w).score = w.score +
      ((w.bones ++ w.hiddenBones).filter (fun b =>
        !b.hidden && collides (update c keys rnd w).player.box b.box)).length := by
  obtain ⟨hp, hhid, hbones, hscore⟩ := frame_nohit c (platforms c) keys w hno
  have hpl : (update c keys rnd w).player = (playerPhase c (platforms c) keys w).player := by
    rw [update_player, hp]
  have hrev := revealStep_released keys (inputPhase keys w) hd
  have hdeep : (playerPhase c (platforms c) keys w).player.deepSearch = false := by
    rw [playerPhase_deepSearch, hrev]
  have hact : (revealStep keys (inputPhase keys w)).bones = w.bones ++ w.hiddenBones := by
    rw [hrev]
    rfl
  have hcol : ∀ x : Bone, collected (playerPhase c (platforms c) keys w).player x =
      (!x.hidden && collides (playerPhase c (platforms c) keys w).player.box x.box) := by
    intro x
    simp [collected, hdeep, Bool.and_comm]
  rw [playerPhase_bones, hact] at hbones hscore
  have hkeep : (frame c (platforms c) keys w).bones.filter (fun b => b.hidden) =
      (w.bones ++ w.hiddenBones).filter (fun b => b.hidden) := by
    rw [hbones, List.filter_filter]
    apply List.filter_congr
    intro x _
    rw [hcol]
    cases x.hidden <;> simp
  refine ⟨?_, hkeep, ?_, ?_⟩
  · intro b hb hh
    unfold update
    rw [spawnPhase_bones]
    apply List.mem_append_left
    have : b ∈ (frame c (platforms c) keys w).bones.filter (fun b => b.hidden) := by
      rw [hkeep]
      exact List.mem_filter.mpr ⟨hb, hh⟩
    exact (List.mem_filter.mp this).1
  · unfold update
    rw [spawnPhase_hiddenBones, hhid, playerPhase_hiddenBones, hrev]
  · unfold update
    rw [spawnPhase_score, hscore, ← update, hpl]
    have hfun : collected (playerPhase c (platforms c) keys w).player =
        fun x => (!x.hidden && collides (playerPhase c (platforms c) keys w).player.box x.box) :=
      funext hcol
    rw [hfun]

/-- The hidden bone of `worldBones` is kept when no key is held. -/
theorem hidden_kept_unrevealed_witness :
    noKeys.d = false ∧
    hazardHit canvas800 (platforms canvas800) noKeys worldBones = false ∧
    (∀ b ∈ worldBones.bones ++ worldBones.hiddenBones, b.hidden = true →
      b ∈ (update canvas800 noKeys rand0 worldBones).bones) ∧
    (update canvas800 noKeys rand0 worldBones).hiddenBones = [] :=
  have h := hidden_kept_unrevealed canvas800 noKeys rand0 worldBones rfl (by decide!)
  ⟨rfl, by decide!, h.1, h.2.2.1⟩

/-- C11: from a grounded player at rest (`dy = 0`) on a platform of the fixed
list, an update with `Space` held and no hazard collision sets `dy = jumpPower`
in the input step and finishes with `grounded` false, `dy = jumpPower + gravity
= -11.5` and `y` lower by 11.5. -/
theorem jump_from_rest (c : Canvas) (keys : Keys) (rnd : Rand) (w : World) (p : Platform)
    (hg : w.player.grounded = true) (_hdy : w.player.dy = 0)
    (hp : p ∈ platforms c) (hrest : w.player.y + playerHeight = p.y)
    (hs : keys.space = true) (hno : hazardHit c (platforms c) keys w = false) :
    (inputPhase keys w).player.dy = jumpPower ∧
    (update c keys rnd w).player.grounded = false ∧
    (update c keys rnd w).player.dy = jumpPower + gravity ∧
    (update c keys rnd w).player.dy = -23 / 2 ∧
    (update c keys rnd w).player.y = w.player.y - 23 / 2 := by
  have hjump : (keys.space && w.player.grounded) = true := by rw [hs, hg]; rfl
  obtain ⟨my, _, mj⟩ := movePlayer_vertical keys w.player
  obtain ⟨mdy, mg⟩ := mj hjump
  obtain ⟨gdy, gy, gg⟩ := gravityPhase_vertical keys w
  rw [mdy] at gdy gy
  rw [my] at gy
  rw [mg] at gg
  have hpy := platforms_y c p hp
  have hfloor : ¬ (gravityPhase keys w).player.y + playerHeight > c.height := by
    rw [gy]
    unfold jumpPower gravity
    linarith
  obtain ⟨ky, kdy, _⟩ := keepInBounds_vertical c _ hfloor
  have hloop : platformLoop (platforms c) (keepInBounds c (gravityPhase keys w).player) =
      { keepInBounds c (gravityPhase keys w).player with grounded := false } := by
    unfold platformLoop
    apply foldl_platformStep_rest
    show (keepInBounds c (gravityPhase keys w).player).dy ≤ 0
    rw [kdy, gdy]
    unfold jumpPower gravity
    norm_num
  obtain ⟨py, pdy, pg⟩ := playerPhase_vertical c (platforms c) keys w
  rw [hloop] at py pdy pg
  have hpl : (update c keys rnd w).player = (playerPhase c (platforms c) keys w).player := by
    rw [update_player, (frame_nohit c (platforms c) keys w hno).1]
  rw [hpl, pg, pdy, py]
  refine ⟨mdy, rfl, ?_, ?_, ?_⟩
  · show (keepInBounds c (gravityPhase keys w).player).dy = _
    rw [kdy, gdy]
  · show (keepInBounds c (gravityPhase keys w).player).dy = _
    rw [kdy, gdy]
    unfold jumpPower gravity
    norm_num
  · show (keepInBounds c (gravityPhase keys w).player).y = _
    rw [ky, gy]
    unfold jumpPower gravity
    ring

/-- The jump of `worldGrounded`, standing on the lowest platform. -/
theorem jump_from_rest_witness :
    worldGrounded.player.grounded = true ∧ worldGrounded.player.dy = 0 ∧
    (⟨0, 380, 200, 20⟩ : Platform) ∈ platforms canvas800 ∧
    worldGrounded.player.y + playerHeight = 380 ∧ keysSpace.space = true ∧
    hazardHit canvas800 (platforms canvas800) keysSpace worldGrounded = false ∧
    (update canvas800 keysSpace rand0 worldGrounded).player.grounded = false ∧
    (update canvas800 keysSpace rand0 worldGrounded).player.dy = -23 / 2 ∧
    (update canvas800 keysSpace rand0 worldGrounded).player.y = worldGrounded.player.y - 23 / 2 :=
  have h := jump_from_rest canvas800 keysSpace rand0 worldGrounded ⟨0, 380, 200, 20⟩
    (by decide!) (by decide!) (by decide!) (by decide!) (by decide!) (by decide!)
  ⟨by decide!, by decide!, by decide!, by decide!, by decide!, by decide!, h.2.1, h.2.2.2.1,
    h.2.2.2.2⟩

/-- C12: with the player not grounded, two key sets that differ only in `Space`
give, for the same random draws, the same world after `update`. -/
theorem airborne_jump_noop (c : Canvas) (k1 k2 : Keys) (rnd : Rand) (w : World)
    (hg : w.player.grounded = false)
    (hl : k1.arrowLeft = k2.arrowLeft) (hr : k1.arrowRight = k2.arrowRight)
    (hd : k1.d = k2.d) (ht : k1.t = k2.t) :
    update c k1 rnd w = update c k2 rnd w := by
  have hnorm : ∀ k : Keys, update c k rnd w = update c { k with space := false } rnd w := by
    intro k
    have hm : movePlayer k w.player = movePlayer { k with space := false } w.player := by
      unfold movePlayer
      dsimp only
      cases k.arrowLeft <;> cases k.arrowRight <;> simp [hg]
    have hin : inputPhase k w = inputPhase { k with space := false } w := by
      unfold inputPhase
      dsimp only
      rw [hm]
    have hgr : gravityPhase k w = gravityPhase { k with space := false } w := by
      unfold gravityPhase
      rw [hin]
      rfl
    have hpp : playerPhase c (platforms c) k w =
        playerPhase c (platforms c) { k with space := false } w := by
      unfold playerPhase physicsPhase
      rw [hgr]
    unfold update frame
    rw [hpp]
  have hk : ({ k1 with space := false } : Keys) = { k2 with space := false } := by
    cases k1
    cases k2
    simp only at hl hr hd ht
    simp [hl, hr, hd, ht]
  rw [hnorm k1, hnorm k2, hk]

/-- The same update of the falling player with and without `Space`. -/
theorem airborne_jump_noop_witness :
    worldFalling.player.grounded = false ∧
    update canvas800 keysSpace rand0 worldFalling = update canvas800 noKeys rand0 worldFalling :=
  ⟨rfl, airborne_jump_noop canvas800 keysSpace noKeys rand0 worldFalling rfl rfl rfl rfl rfl⟩

/-- C13: after every update the asteroid array is empty when a collision block
ran, and otherwise holds, in order, exactly the asteroids that had `x > -width`
when the hazard step started (those with `x <= -width` are dropped), each with
only `x` changed; the asteroid spawned on this frame, if any, follows.  An
asteroid at `x = canvas.width` of width 30 passes the filter on a canvas of
non-negative width, and one with `x <= -30` does not. -/
theorem asteroid_removal (c : Canvas) (keys : Keys) (rnd : Rand) (w : World) :
    (update c keys rnd w).asteroids =
      (if hazardHit c (platforms c) keys w = true then []
        else (w.asteroids.filter (fun a => decide (a.x > -a.width))).map
          (moveAsteroid (update c keys rnd w).player.thinkMode)) ++
      (if (w.gameTime + 1) % 120 = 0 then [newAsteroid c rnd] else []) ∧
    (∀ (t : Bool) (a : Asteroid), (moveAsteroid t a).y = a.y ∧
      (moveAsteroid t a).width = a.width ∧ (moveAsteroid t a).height = a.height ∧
      (moveAsteroid t a).speed = a.speed) ∧
    (∀ a : Asteroid, a.x ≤ -a.width →
      a ∉ w.asteroids.filter (fun a => decide (a.x > -a.width))) ∧
    (∀ a ∈ w.asteroids, a.x > -a.width →
      a ∈ w.asteroids.filter (fun a => decide (a.x > -a.width))) ∧
    (0 ≤ c.width → (newAsteroid c rnd).x > -(newAsteroid c rnd).width) := by
  refine ⟨?_, fun t a => ⟨rfl, rfl, rfl, rfl⟩, ?_, ?_, ?_⟩
  · unfold update
    rw [spawnPhase_asteroids, frame_gameTime, spawnPhase_player]
    congr 1
    cases h : hazardHit c (platforms c) keys w
    · rw [if_neg (by simp)]
      exact (frame_hazards_nohit c (platforms c) keys w h).1
    · rw [if_pos rfl, frame_hit c (platforms c) keys w h]
      rfl
  · intro a ha hmem
    have := (List.mem_filter.mp hmem).2
    rw [decide_eq_true_eq] at this
    linarith
  · intro a hmem ha
    exact List.mem_filter.mpr ⟨hmem, decide_eq_true ha⟩
  · intro hc
    show c.width > -(30 : ℚ)
    linarith

/-- The removal on `worldAsteroids`: the asteroid at `x = -30` is dropped and the
one at the right edge is kept and moved. -/
theorem asteroid_removal_witness :
    (update canvas800 noKeys rand0 worldAsteroids).asteroids =
      (if hazardHit canvas800 (platforms canvas800) noKeys worldAsteroids = true then []
        else (worldAsteroids.asteroids.filter (fun a => decide (a.x > -a.width))).map
          (moveAsteroid (update canvas800 noKeys rand0 worldAsteroids).player.thinkMode)) ++
      (if (worldAsteroids.gameTime + 1) % 120 = 0 then [newAsteroid canvas800 rand0] else []) ∧
    (update canvas800 noKeys rand0 worldAsteroids).asteroids = [⟨796, 20, 30, 30, 4⟩] :=
  ⟨(asteroid_removal canvas800 noKeys rand0 worldAsteroids).1, by decide!⟩

/-- C14, as stated, fails for asteroids: the result of line 140 is rounded to a
double.  The asteroid that `spawnAsteroid` makes from the draw `2 ^ (-51)` has
`x = 800` and `speed = 3 + 2 ^ (-50)`; after one update outside think mode, with
no hazard collision, its `x` is 797, a decrease of 3 and not of `speed`. -/
theorem asteroid_decrease_rounded :
    (start canvas800 randTiny).asteroids = [⟨800, 0, 30, 30, 3 + 1 / 2 ^ 50⟩] ∧
    hazardHit canvas800 (platforms canvas800) noKeys (start canvas800 randTiny) = false ∧
    (update canvas800 noKeys randTiny (start canvas800 randTiny)).player.thinkMode = false ∧
    (update canvas800 noKeys randTiny (start canvas800 randTiny)).asteroids =
      [⟨797, 0, 30, 30, 3 + 1 / 2 ^ 50⟩] ∧
    (800 : ℚ) - 797 ≠ 3 + 1 / 2 ^ 50 := by
  decide!

/-- C14, amended: after every update without a collision block each asteroid kept
has as `x` the double nearest to `x - speed * f` (`speed * f` itself rounded),
within half a unit in the last place of the exact value and equal to it when
product and difference are multiples of their units in the last place; each
robot has moved by exactly `speed * f` (the speed before any turn).  Here `f` is
1/2 when `thinkMode` is true after the countdown step of that update and 1
otherwise; with a collision block both arrays are emptied.  The update that
activates think mode finishes with `thinkMode` true (half speed) and the update
in which the countdown reaches 0 with `thinkMode` false (full speed). -/
theorem hazard_speed_scaling (c : Canvas) (keys : Keys) (rnd : Rand) (w : World) :
    (update c keys rnd w).asteroids =
      (if hazardHit c (platforms c) keys w = true then []
        else (w.asteroids.filter (fun a => decide (a.x > -a.width))).map
          (moveAsteroid (update c keys rnd w).player.thinkMode)) ++
      (if (w.gameTime + 1) % 120 = 0 then [newAsteroid c rnd] else []) ∧
    (∀ (t : Bool) (a : Asteroid),
      (moveAsteroid t a).x = roundDouble (a.x - roundDouble (a.speed * speedFactor t))) ∧
    (∀ q : ℚ, |roundDouble q - q| ≤ ulp q / 2) ∧
    (∀ (t : Bool) (a : Asteroid),
      (∃ n : Int, a.speed * speedFactor t = n * ulp (a.speed * speedFactor t)) →
      (∃ n : Int, a.x - a.speed * speedFactor t = n * ulp (a.x - a.speed * speedFactor t)) →
      (moveAsteroid t a).x = a.x - a.speed * speedFactor t) ∧
    (update c keys rnd w).robots =
      (if hazardHit c (platforms c) keys w = true then []
        else w.robots.map (moveRobot (platforms c) (update c keys rnd w).player.thinkMode)) ++
      (if (w.gameTime + 1) % 180 = 0 then [newRobot c rnd] else []) ∧
    (∀ (ps : List Platform) (t : Bool) (r : Robot),
      (moveRobot ps t r).x = r.x + r.speed * speedFactor t) ∧
    speedFactor true = 1 / 2 ∧ speedFactor false = 1 ∧
    (w.player.thinkMode = false → keys.t = true →
      (update c keys rnd w).player.thinkMode = true) ∧
    (w.player.thinkMode = true → w.player.thinkModeTimer ≤ 1 →
      (update c keys rnd w).player.thinkMode = false) := by
  obtain ⟨u1, _⟩ := update_think c keys rnd w
  have s1 := (thinkStart_think keys w.player).1
  have s2 := (thinkStart_think keys w.player).2
  rw [(thinkTick_think _).1, s1, s2] at u1
  refine ⟨?_, fun t a => rfl, roundDouble_bound, ?_, ?_,
    fun ps t r => (moveRobot_x ps t r).1, rfl, rfl, ?_, ?_⟩
  · unfold update
    rw [spawnPhase_asteroids, frame_gameTime, spawnPhase_player]
    congr 1
    cases h : hazardHit c (platforms c) keys w
    · rw [if_neg (by simp)]
      exact (frame_hazards_nohit c (platforms c) keys w h).1
    · rw [if_pos rfl, frame_hit c (platforms c) keys w h]
      rfl
  · rintro t a ⟨n1, h1⟩ ⟨n2, h2⟩
    show roundDouble (a.x - roundDouble (a.speed * speedFactor t)) = _
    rw [roundDouble_exact _ n1 h1, roundDouble_exact _ n2 h2]
  · unfold update
    rw [spawnPhase_robots, frame_gameTime, spawnPhase_player]
    congr 1
    cases h : hazardHit c (platforms c) keys w
    · rw [if_neg (by simp)]
      exact (frame_hazards_nohit c (platforms c) keys w h).2
    · rw [if_pos rfl, frame_hit c (platforms c) keys w h]
      rfl
  · intro h0 ht
    rw [u1, h0, ht]
    simp [thinkModeDuration]
  · intro h1 hle
    rw [u1, h1]
    simp only [Bool.true_or, Bool.not_true, Bool.and_false, Bool.false_eq_true, if_false,
      Bool.true_and, decide_eq_false_iff_not]
    omega

/-- The half-speed move on `worldAsteroids` on the frame that activates think
mode: speed 4 at `x = 800` gives exactly 798, and the robot moves by 1. -/
theorem hazard_speed_scaling_witness :
    (worldAsteroids.player.thinkMode = false → keysT.t = true →
      (update canvas800 keysT rand0 worldAsteroids).player.thinkMode = true) ∧
    (update canvas800 keysT rand0 worldAsteroids).asteroids = [⟨798, 20, 30, 30, 4⟩] ∧
    (update canvas800 keysT rand0 worldAsteroids).robots = [⟨459, 260, 40, 40, -2⟩] :=
  ⟨(hazard_speed_scaling canvas800 keysT rand0 worldAsteroids).2.2.2.2.2.2.2.2.1,
    by decide!, by decide!⟩

/-- C15: in every state reachable from the initial state `grounded` is false,
`dy >= 0` and `canvas.height - 50 <= y <= canvas.height - 40`; so for every key
set the jump condition of line 90 is false and the input step leaves `dy` as it
was. -/
theorem never_grounded (c : Canvas) (w : World) (h : Reachable c w) :
    w.player.grounded = false ∧ 0 ≤ w.player.dy ∧
    c.height - 50 ≤ w.player.y ∧ w.player.y ≤ c.height - 40 ∧
    ∀ keys : Keys, (keys.space && w.player.grounded) = false ∧
      (inputPhase keys w).player.dy = w.player.dy := by
  obtain ⟨hg, hdy, hlo, hhi⟩ := reachable_floor_inv c w h
  refine ⟨hg, hdy, hlo, hhi, ?_⟩
  intro keys
  have hj : (keys.space && w.player.grounded) = false := by rw [hg]; simp
  exact ⟨hj, ((movePlayer_vertical keys w.player).2.1 hj).1⟩

/-- The invariant on the world after the startup spawns and one update with
`Space` held. -/
theorem never_grounded_witness :
    Reachable canvas800 (update canvas800 keysSpace rand0 (start canvas800 rand0)) ∧
    (update canvas800 keysSpace rand0 (start canvas800 rand0)).player.grounded = false ∧
    0 ≤ (update canvas800 keysSpace rand0 (start canvas800 rand0)).player.dy :=
  have hr : Reachable canvas800 (update canvas800 keysSpace rand0 (start canvas800 rand0)) :=
    Reachable.step keysSpace rand0 _ (Reachable.start rand0)
  ⟨hr, (never_grounded canvas800 _ hr).1, (never_grounded canvas800 _ hr).2.1⟩

/-- C16, as stated, fails: both platforms of `twoPlatforms` satisfy the landing
condition for `fallingPlayer` when the loop starts, and after the loop the
player's bottom edge is the top (136) of the first of them, not the top (138) of
the last. -/
theorem last_platform_does_not_win :
    landsOn fallingPlayer ⟨0, 136, 200, 20⟩ = true ∧
    landsOn fallingPlayer ⟨0, 138, 200, 20⟩ = true ∧
    twoPlatforms = [⟨0, 136, 200, 20⟩, ⟨0, 138, 200, 20⟩] ∧
    (platformLoop twoPlatforms fallingPlayer).y + playerHeight = 136 ∧
    (platformLoop twoPlatforms fallingPlayer).y + playerHeight ≠ 138 := by
  decide!

/-- C16, amended: when some platform satisfies the landing condition at the
start of the platform loop, after the loop the player's bottom edge is the top
of the first such platform in iteration order, with `dy = 0` and `grounded`
true. -/
theorem first_platform_wins (ps : List Platform) (p : Player) (q : Platform)
    (h : ps.find? (landsOn p) = some q) :
    (platformLoop ps p).y + playerHeight = q.y ∧ (platformLoop ps p).dy = 0 ∧
    (platformLoop ps p).grounded = true := by
  unfold platformLoop
  exact foldl_platformStep_first ps { p with grounded := false } q h

/-- The first of `twoPlatforms` wins for `fallingPlayer`. -/
theorem first_platform_wins_witness :
    twoPlatforms.find? (landsOn fallingPlayer) = some ⟨0, 136, 200, 20⟩ ∧
    (platformLoop twoPlatforms fallingPlayer).y + playerHeight = 136 :=
  ⟨by decide!, (first_platform_wins twoPlatforms fallingPlayer ⟨0, 136, 200, 20⟩ (by decide!)).1⟩

/-- C17: a robot can be left heading away from its platform.  `worldEdge` is
reached by 81 updates from the startup spawns; its robot, made by `spawnRobot` on
the platform spanning 300 to 500, has just passed the left edge at full speed
and turned (`x = 298`, `speed = 2`).  An update that activates think mode moves
it by half its speed to `x = 299`, still left of the platform, and line 158
flips the speed to `-2`; the next update moves it farther out, to `x = 298`. -/
theorem robot_turns_away :
    run canvas800 (List.replicate 81 (noKeys, randMid)) (start canvas800 randMid) = worldEdge ∧
    (start canvas800 randMid).robots = [newRobot canvas800 randMid] ∧
    pickPlatform canvas800 randMid.robotPlatform = ⟨300, 300, 200, 20⟩ ∧
    worldEdge.robots = [⟨298, 260, 40, 40, 2⟩] ∧
    hazardHit canvas800 (platforms canvas800) keysT worldEdge = false ∧
    (update canvas800 keysT randMid worldEdge).robots = [⟨299, 260, 40, 40, -2⟩] ∧
    (update canvas800 keysT randMid (update canvas800 keysT randMid worldEdge)).robots =
      [⟨298, 260, 40, 40, 2⟩] := by
  decide!

/-- C18: with the reveal key not held the reveal step gives `deepSearch` false,
an empty parked collection and the old active collection followed by the old
parked one; running the step again changes nothing. -/
theorem release_merge (keys : Keys) (w : World) (hd : keys.d = false) :
    (revealStep keys w).player.deepSearch = false ∧
    (revealStep keys w).hiddenBones = [] ∧
    (revealStep keys w).bones = w.bones ++ w.hiddenBones ∧
    revealStep keys (revealStep keys w) = revealStep keys w := by
  have h1 := revealStep_released keys w hd
  have h2 := revealStep_released keys (revealStep keys w) hd
  refine ⟨by rw [h1], by rw [h1], by rw [h1], ?_⟩
  rw [h2, h1]
  simp

/-- The merge on `worldRevealed` with a bone parked. -/
theorem release_merge_witness :
    noKeys.d = false ∧
    (revealStep noKeys { worldRevealed with hiddenBones := [hiddenBone] }).bones =
      [hiddenBone, plainBone, hiddenBone] ∧
    revealStep noKeys (revealStep noKeys { worldRevealed with hiddenBones := [hiddenBone] }) =
      revealStep noKeys { worldRevealed with hiddenBones := [hiddenBone] } :=
  have h := release_merge noKeys { worldRevealed with hiddenBones := [hiddenBone] } rfl
  ⟨rfl, h.2.2.1, h.2.2.2⟩

/-- C19: in every reachable state the parked collection is empty whenever
`deepSearch` is false, and every bone of the parked collection is hidden. -/
theorem parked_invariant (c : Canvas) (w : World) (h : Reachable c w) :
    (w.player.deepSearch = false → w.hiddenBones = []) ∧
    ∀ b ∈ w.hiddenBones, b.hidden = true :=
  ⟨reachable_parked c w h, reachable_parked_hidden c w h⟩

/-- The invariant after the startup spawns and one update with `d` held, which
parks the hidden bone spawned at startup. -/
theorem parked_invariant_witness :
    Reachable canvas800 (update canvas800 keysD rand0 (start canvas800 rand0)) ∧
    (update canvas800 keysD rand0 (start canvas800 rand0)).hiddenBones = [⟨0, 360, 20, 20, true⟩] ∧
    ∀ b ∈ (update canvas800 keysD rand0 (start canvas800 rand0)).hiddenBones, b.hidden = true :=
  have hr : Reachable canvas800 (update canvas800 keysD rand0 (start canvas800 rand0)) :=
    Reachable.step keysD rand0 _ (Reachable.start rand0)
  ⟨hr, by decide!, (parked_invariant canvas800 _ hr).2⟩

/-- C20: `spawnBone` appends one bone to the active collection and changes
nothing else; the bone is 20 by 20, rests on the platform picked by the draw (a
platform of the fixed list) and lies within its span. -/
theorem bone_spawn_placement (c : Canvas) (rnd : Rand) (w : World) :
    spawnBone c rnd w = { w with bones := w.bones ++ [newBone c rnd] } ∧
    pickPlatform c rnd.bonePlatform ∈ platforms c ∧
    (newBone c rnd).width = 20 ∧ (newBone c rnd).height = 20 ∧
    (newBone c rnd).y + (newBone c rnd).height = (pickPlatform c rnd.bonePlatform).y ∧
    (pickPlatform c rnd.bonePlatform).x ≤ (newBone c rnd).x ∧
    (newBone c rnd).x + (newBone c rnd).width ≤
      (pickPlatform c rnd.bonePlatform).x + (pickPlatform c rnd.bonePlatform).width := by
  obtain ⟨hmem, hw⟩ := pickPlatform_mem c rnd.bonePlatform
  have h0 := rnd.boneOffset.nonneg
  have h1 := rnd.boneOffset.lt_one
  refine ⟨rfl, hmem, rfl, rfl, ?_, ?_, ?_⟩
  · show (pickPlatform c rnd.bonePlatform).y - 20 + 20 = _
    ring
  · show _ ≤ (pickPlatform c rnd.bonePlatform).x +
      rnd.boneOffset.val * ((pickPlatform c rnd.bonePlatform).width - 20)
    rw [hw]
    linarith
  · show (pickPlatform c rnd.bonePlatform).x +
      rnd.boneOffset.val * ((pickPlatform c rnd.bonePlatform).width - 20) + 20 ≤ _
    rw [hw]
    linarith

end Game
